import Mathlib

/-!
# Verification of the Android test report aggregation engine

A shallow embedding of `src/index.mjs`: the anchor namer (`makeAnchorId`,
`makeJumpLink`), the per-file parser (`parseXML`), and the aggregation
driver (`main` plus the top-level try/catch), together with proofs about
them.

Modelling conventions:
* JavaScript numbers are modelled by `JSNum`: an exact rational together
  with a `nan` element that is absorbing for addition and never greater
  than zero.  Floating-point rounding is idealized away (sums are exact
  rationals); `NaN` propagation is kept.
* JavaScript `undefined`/`null` values flowing into table cells are
  modelled by `Option String` (`none` = absent).  Operations that throw a
  `TypeError` in JavaScript (property access or method call on
  `null`/`undefined`) are modelled by `Except String`, with the error
  string standing in for the thrown exception's message.
* JavaScript objects used as string-keyed maps are modelled by
  association lists with in-place update (`objSet`), which preserves the
  insertion order that `Object.entries` iterates in.
-/

namespace AndroidTestReport

/-! ## JavaScript numbers -/

/-- A JavaScript number: an exact rational, or `NaN`. -/
inductive JSNum where
  | num (q : ℚ)
  | nan
  deriving DecidableEq, Repr

/-- JavaScript `+` on numbers: `NaN` is absorbing. -/
def JSNum.add : JSNum → JSNum → JSNum
  | .num a, .num b => .num (a + b)
  | _, _ => .nan

instance : Add JSNum := ⟨JSNum.add⟩

/-- The JavaScript comparison `value > 0`; false on `NaN`. -/
def JSNum.gtZero : JSNum → Bool
  | .num a => decide (0 < a)
  | .nan => false

/-- Characters skipped by `parseInt`/`parseFloat` before the number. -/
def isJsWhitespace (c : Char) : Bool :=
  c = ' ' || c = '\t' || c = '\n' || c = '\r'

def digitVal (c : Char) : ℕ := c.toNat - 48

def digitsToNat (ds : List Char) : ℕ :=
  ds.foldl (fun a c => 10 * a + digitVal c) 0

/-- Splits an optional leading sign off a character list, returning the
sign as an integer factor. -/
def splitSign : List Char → ℤ × List Char
  | '+' :: t => (1, t)
  | '-' :: t => (-1, t)
  | cs => (1, cs)

/-- JavaScript `parseInt(s)` (radix 10): skip leading whitespace, read an
optional sign and then the longest run of decimal digits; `NaN` when no
digit is found.  (Radix auto-detection of `0x` literals is not modelled;
the inputs here are decimal test counts.) -/
def jsParseInt (s : String) : JSNum :=
  let cs := s.data.dropWhile isJsWhitespace
  let sr := splitSign cs
  let ds := sr.2.takeWhile Char.isDigit
  if ds.isEmpty then .nan
  else .num ((sr.1 * (digitsToNat ds : ℤ) : ℤ) : ℚ)

/-- Reads the exponent part accepted by `parseFloat` after `e`/`E`:
an optional sign and at least one digit, else the exponent is 0 (the
`e` is not part of the longest valid numeric literal). -/
def jsParseExp : List Char → ℤ
  | 'e' :: t =>
    let sr := splitSign t
    let ds := sr.2.takeWhile Char.isDigit
    if ds.isEmpty then 0 else sr.1 * (digitsToNat ds : ℤ)
  | 'E' :: t =>
    let sr := splitSign t
    let ds := sr.2.takeWhile Char.isDigit
    if ds.isEmpty then 0 else sr.1 * (digitsToNat ds : ℤ)
  | _ => 0

/-- JavaScript `parseFloat(s)`: skip leading whitespace, then read the
longest prefix of the form `[+-]? digits [. digits]? ([eE][+-]?digits)?`;
`NaN` when no digit occurs in the mantissa.  The value is exact here
(rationals), so decimal literals are represented without rounding. -/
def jsParseFloat (s : String) : JSNum :=
  let cs := s.data.dropWhile isJsWhitespace
  let sr := splitSign cs
  let ip := sr.2.takeWhile Char.isDigit
  let r2 := sr.2.drop ip.length
  let fp := match r2 with
    | '.' :: t => t.takeWhile Char.isDigit
    | _ => []
  let r3 := match r2 with
    | '.' :: t => t.dropWhile Char.isDigit
    | _ => r2
  if ip.isEmpty && fp.isEmpty then .nan
  else
    let mant : ℚ := (digitsToNat ip : ℚ) + (digitsToNat fp : ℚ) / (10 : ℚ) ^ fp.length
    .num ((sr.1 : ℚ) * mant * (10 : ℚ) ^ jsParseExp r3)

/-- JavaScript `Number.prototype.toString` restricted to what the report
needs: integers print exactly as in JavaScript, `NaN` prints `"NaN"`.
The shortest-round-trip formatting of non-integral doubles is not
modelled; a fraction notation stands in for it. -/
def jsNumToString : JSNum → String
  | .nan => "NaN"
  | .num q => if q.den = 1 then toString q.num else toString q.num ++ "/" ++ toString q.den

/-- A value stored in the summary-data object: either a raw attribute
string or a number produced by `parseInt`. -/
inductive JSVal where
  | str (s : String)
  | num (n : JSNum)
  deriving DecidableEq, Repr

/-- JavaScript string coercion of a summary value (`value.toString()`). -/
def JSVal.toStr : JSVal → String
  | .str s => s
  | .num n => jsNumToString n

/-- Reads a summary value as a number for `summaryTotal.<k> += value`.
The numeric keys (`tests`/`skipped`/`failures`/`errors`) always hold
numbers after parsing, so the string case is unreachable there. -/
def JSVal.toNum : JSVal → JSNum
  | .num n => n
  | .str _ => .nan

/-- `parseFloat(value)` on a summary value; the `time` key always holds a
string, which is what the source passes to `parseFloat`. -/
def JSVal.pFloat : JSVal → JSNum
  | .str s => jsParseFloat s
  | .num n => n

/-- The JavaScript test `value > 0` on a summary value.  The keys this is
applied to (`skipped`/`failures`/`errors`) always hold numbers. -/
def JSVal.gtZero : JSVal → Bool
  | .num n => n.gtZero
  | .str _ => false

/-! ## Anchor namer (`makeAnchorId`, `makeJumpLink`) -/

/-- `[a-z0-9]`, the character class kept verbatim by the slug. -/
def isLowerDigit (c : Char) : Bool := c.isLower || c.isDigit

/-- Step 1 of `makeAnchorId`: the regex replace
`where.replace(/([a-z0-9])([A-Z])/g, '$1-$2')` — a hyphen is inserted
between each lowercase-or-digit character and an immediately following
uppercase letter.  (The two character classes are disjoint, so the
global non-overlapping regex replacement is exactly this pairwise
insertion.) -/
def camelSplit : List Char → List Char
  | [] => []
  | [c] => [c]
  | c1 :: c2 :: rest =>
    if isLowerDigit c1 && c2.isUpper then c1 :: '-' :: camelSplit (c2 :: rest)
    else c1 :: camelSplit (c2 :: rest)

/-- `toLowerCase()` (ASCII; the slug inputs are class names). -/
def toLowerAll (cs : List Char) : List Char := cs.map Char.toLower

/-- Step 2 of `makeAnchorId`: `replace(/[^a-z0-9]/g, '-')`. -/
def dashNonAlnum (cs : List Char) : List Char :=
  cs.map (fun c => if isLowerDigit c then c else '-')

/-- The pure slug of a (non-null) `where` label: camel-case split, then
lowercased, then every character outside `[a-z0-9]` replaced by `-`. -/
def slug (s : String) : String :=
  String.mk (dashNonAlnum (toLowerAll (camelSplit s.data)))

/-- The anchor id built from a present `where` label: the slug, with
`-<postfix>` appended when the postfix is non-empty, and `back-to-`
prepended when `back` is set. -/
def anchorIdStr (w pfix : String) (back : Bool) : String :=
  let k := slug w
  let k2 := if pfix ≠ "" then k ++ "-" ++ pfix else k
  if back then "back-to-" ++ k2 else k2

/-- The options object taken by `makeAnchorId`: `whereLabel` models the
`where` field (`none` = JavaScript `null`/`undefined`), `pfix` the
`postfix` field, `back` the `back` flag. -/
structure AnchorOptions where
  whereLabel : Option String
  pfix : String := ""
  back : Bool := false
  deriving DecidableEq, Repr

/-- The message of the `TypeError` thrown by `where.replace(...)` when
the label is `null` or `undefined`. -/
def tyErrNullWhere : String :=
  "TypeError: cannot read replace of null or undefined"

/-- `makeAnchorId(options)`.  Calling it with a missing `where` label
throws (the source immediately calls `.replace` on it). -/
def makeAnchorId (o : AnchorOptions) : Except String String :=
  match o.whereLabel with
  | some w => .ok (anchorIdStr w o.pfix o.back)
  | none => .error tyErrNullWhere

/-- `makeJumpLink(options)`: the forward fragment reference
`#user-content-<anchor id>`. -/
def makeJumpLink (o : AnchorOptions) : Except String String :=
  (makeAnchorId o).map (fun a => "#user-content-" ++ a)

/-- The pure jump link for a present label (what `makeJumpLink` returns
when the label is a string). -/
def jumpLinkStr (w pfix : String) (back : Bool) : String :=
  "#user-content-" ++ anchorIdStr w pfix back

/-- Removes an expected leading character sequence, or fails. -/
def dropLead : List Char → List Char → Option (List Char)
  | [], t => some t
  | _ :: _, [] => none
  | p :: ps, c :: cs => if p = c then dropLead ps cs else none

/-- The id an href fragment resolves to on the rendered summary page:
GitHub prefixes every user-provided anchor id with `user-content-`, so a
link `#user-content-X` targets the element whose declared id is `X`. -/
def fragmentTarget (href : String) : Option String :=
  (dropLead "#user-content-".data href.data).map String.mk

/-- Whether a string begins with the given leading text. -/
def textHasLead (lead s : String) : Bool :=
  (dropLead lead.data s.data).isSome

/-! ## Tables -/

/-- One summary-table cell: `{data: ..., header?: true}`.  `data` is
`none` when the source stores a JavaScript `undefined` there (e.g. a
missing failure message). -/
structure Cell where
  data : Option String
  header : Bool := false
  deriving DecidableEq, Repr

abbrev Row := List Cell

abbrev Table := List Row

/-- `createSummaryTable()`: the header row of the summary table. -/
def createSummaryTable : Table :=
  [[⟨some "💾 Name", true⟩, ⟨some "📋 Tests", true⟩, ⟨some "↩️ Skipped", true⟩,
    ⟨some "‼️ Failures", true⟩, ⟨some "❌ Errors", true⟩, ⟨some "⌚ Timestamp", true⟩,
    ⟨some "⌛ Time (s)", true⟩]]

/-- `createFailureTable()`: the header row of a failure detail table. -/
def createFailureTable : Table :=
  [[⟨some "💾 Test Name", true⟩, ⟨some "💬 Failure Message", true⟩,
    ⟨some "⁉️ Failure Type", true⟩, ⟨some "⌛️ Time (s)", true⟩,
    ⟨some "🤔 Stack Trace", true⟩]]

/-- `createSkippedTable()`: the header row of a skip detail table. -/
def createSkippedTable : Table :=
  [[⟨some "💾 Test Name", true⟩, ⟨some "🏛️ Class Name", true⟩, ⟨some "⌛️ Time (s)", true⟩]]

/-! ## Suite records (decoded XML) -/

/-- A `<failure>` child element of a test case: `message` and `type`
attributes and the element text (`_`, the stack trace), each possibly
absent. -/
structure FailureElem where
  message : Option String
  ftype : Option String
  stackTrace : Option String
  deriving DecidableEq, Repr

/-- One `<testcase>` element: its attribute map in document order, an
optional `<failure>` child, and whether a `<skipped>` child is present. -/
structure XMLCase where
  attrs : List (String × String)
  failure : Option FailureElem
  skipped : Bool
  deriving DecidableEq, Repr

/-- One decoded `<testsuite>` root: its attribute map in document order
and its `<testcase>` children in document order. -/
structure XMLSuite where
  attrs : List (String × String)
  testcase : List XMLCase
  deriving DecidableEq, Repr

/-- First-match association-list lookup (JavaScript property read on an
object whose keys are unique). -/
def alookup : List (String × α) → String → Option α
  | [], _ => none
  | (k, v) :: t, k' => if k = k' then some v else alookup t k'

/-- JavaScript object assignment `obj[k] = v` on an insertion-ordered
map: an existing key keeps its position and gets the new value, a new
key is appended. -/
def objSet : List (String × α) → String → α → List (String × α)
  | [], k, v => [(k, v)]
  | (k', v') :: t, k, v => if k' = k then (k, v) :: t else (k', v') :: objSet t k v

/-- The initial `summaryData` object, in declaration order. -/
def initSummaryData : List (String × JSVal) :=
  [("name", .str "N/A"), ("tests", .num (.num 0)), ("skipped", .num (.num 0)),
   ("failures", .num (.num 0)), ("errors", .num (.num 0)),
   ("timestamp", .str "N/A"), ("time", .str "0")]

/-- The keys coerced with `parseInt` by the attribute switch. -/
def isCountKey (k : String) : Bool :=
  k = "tests" || k = "skipped" || k = "failures" || k = "errors"

/-- The value the attribute loop stores for key `k`. -/
def coerceAttr (k v : String) : JSVal :=
  if isCountKey k then .num (jsParseInt v) else .str v

/-- One iteration of the attribute loop: `hostname` is skipped, count
keys are `parseInt`-coerced, all other attributes are copied verbatim. -/
def applyAttr (sd : List (String × JSVal)) (kv : String × String) : List (String × JSVal) :=
  if kv.1 = "hostname" then sd else objSet sd kv.1 (coerceAttr kv.1 kv.2)

/-- The whole `for (const [dataName, dataValue] of Object.entries(attributes))`
loop over `summaryData`. -/
def applyAttrs : List (String × JSVal) → List (String × String) → List (String × JSVal)
  | sd, [] => sd
  | sd, kv :: t => applyAttrs (applyAttr sd kv) t

/-- `TypeError` thrown by `attributes.time.toString()` when the failing
case has no `time` attribute. -/
def tyErrUndefToString : String :=
  "TypeError: cannot read toString of undefined"

/-- `TypeError` thrown by `table[1][0].data` when the first data row of a
detail table has no first cell. -/
def tyErrUndefData : String :=
  "TypeError: cannot read data of undefined"

/-- The failure-table row pushed for one failing case:
name, failure message, failure type, time, stack trace. -/
def caseFailureRow (c : XMLCase) (f : FailureElem) : Except String Row :=
  match alookup c.attrs "time" with
  | none => .error tyErrUndefToString
  | some tm =>
    .ok [⟨alookup c.attrs "name", false⟩, ⟨f.message, false⟩, ⟨f.ftype, false⟩,
         ⟨some tm, false⟩, ⟨f.stackTrace, false⟩]

/-- The skip-table row pushed for one skipped case: every raw attribute
value, in document order. -/
def caseSkipRow (c : XMLCase) : Row :=
  c.attrs.map (fun kv => ⟨some kv.2, false⟩)

/-- Appends the skip row for `c` when it carries a `<skipped>` child,
creating the skip table (with header) on first use. -/
def skipUpd (st : Option Table) (c : XMLCase) : Option Table :=
  if c.skipped then some ((st.getD createSkippedTable) ++ [caseSkipRow c]) else st

/-- The `root.testcase.forEach(...)` loop of `parseXML`: folds cases into
the lazily-created failure and skip tables. -/
def caseFold : Option Table → Option Table → List XMLCase → Except String (Option Table × Option Table)
  | et, st, [] => .ok (et, st)
  | et, st, c :: rest =>
    match c.failure with
    | none => caseFold et (skipUpd st c) rest
    | some f =>
      match caseFailureRow c f with
      | .error e => .error e
      | .ok row => caseFold (some ((et.getD createFailureTable) ++ [row])) (skipUpd st c) rest

/-- The result of `parseXML`: the summary-data object and the optional
failure and skip detail tables. -/
structure XMLData where
  summary : List (String × JSVal)
  failure : Option Table
  skip : Option Table
  deriving DecidableEq, Repr

/-- `parseXML` on an already-decoded suite: builds `summaryData` from the
root attributes and the detail tables from the cases.  (The unused
`hasSeenFailure` flag of the source is not modelled.) -/
def parseXML (s : XMLSuite) : Except String XMLData :=
  match caseFold none none s.testcase with
  | .error e => .error e
  | .ok (et, st) => .ok ⟨applyAttrs initSummaryData s.attrs, et, st⟩

/-! ## The aggregation driver (`main`) -/

/-- The `summaryTotal` accumulator (its constant `name: "Total"` and
`timestamp: "N/A"` fields appear in `mkTotalRow`). -/
structure SummaryTotal where
  tests : JSNum
  skipped : JSNum
  failures : JSNum
  errors : JSNum
  time : JSNum
  deriving DecidableEq, Repr

def initTotal : SummaryTotal := ⟨.num 0, .num 0, .num 0, .num 0, .num 0⟩

/-- `const failurePostfix = "failures"`. -/
def failurePfix : String := "failures"

/-- `const skipPostfix = "skipped"`. -/
def skipPfix : String := "skipped"

/-- The HTML written into a linked count cell:
`<a href="<link>" id="<anchor id>"><count></a>`. -/
def anchorCellHtml (href aid txt : String) : String :=
  "<a href=\"" ++ href ++ "\" id=\"" ++ aid ++ "\">" ++ txt ++ "</a>"

/-- The first `switch (key)` of the row loop: builds one summary-row cell
for the entry `(k, v)` of `summaryData`.  Nonzero failure/error counts
link to the failure section via `failureWhere`; nonzero skip counts link
to the skip section via `skipWhere` when skip reporting is on.  A
missing `where` label makes the anchor namer throw. -/
def buildCell (showSkipped : Bool) (failureWhere skipWhere : Option String)
    (k : String) (v : JSVal) : Except String Cell :=
  if k = "failures" ∨ k = "errors" then
    if v.gtZero then
      match makeJumpLink ⟨failureWhere, failurePfix, false⟩,
            makeAnchorId ⟨failureWhere, failurePfix, true⟩ with
      | .ok link, .ok aid => .ok ⟨some (anchorCellHtml link aid v.toStr), false⟩
      | .error e, _ => .error e
      | _, .error e => .error e
    else .ok ⟨some "0", false⟩
  else if k = "skipped" then
    if v.gtZero then
      if showSkipped then
        match makeJumpLink ⟨skipWhere, skipPfix, false⟩,
              makeAnchorId ⟨skipWhere, skipPfix, true⟩ with
        | .ok link, .ok aid => .ok ⟨some (anchorCellHtml link aid v.toStr), false⟩
        | .error e, _ => .error e
        | _, .error e => .error e
      else .ok ⟨some v.toStr, false⟩
    else .ok ⟨some "0", false⟩
  else .ok ⟨some v.toStr, false⟩

/-- The second `switch (key)` of the row loop: adds the entry's value
into the running totals. -/
def totalsAdd (tot : SummaryTotal) (k : String) (v : JSVal) : SummaryTotal :=
  if k = "tests" then { tot with tests := tot.tests + v.toNum }
  else if k = "skipped" then { tot with skipped := tot.skipped + v.toNum }
  else if k = "failures" then { tot with failures := tot.failures + v.toNum }
  else if k = "errors" then { tot with errors := tot.errors + v.toNum }
  else if k = "time" then { tot with time := tot.time + v.pFloat }
  else tot

/-- The `Object.entries(summary).forEach(...)` loop: per entry, push the
built cell onto the row and fold the value into the totals. -/
def rowFold (showSkipped : Bool) (fw sw : Option String) :
    Row → SummaryTotal → List (String × JSVal) → Except String (Row × SummaryTotal)
  | row, tot, [] => .ok (row, tot)
  | row, tot, (k, v) :: rest =>
    match buildCell showSkipped fw sw k v with
    | .error e => .error e
    | .ok c => rowFold showSkipped fw sw (row ++ [c]) (totalsAdd tot k v) rest

/-- `table[1][0].data`: the first cell of the first data row of a detail
table — the "where" label.  Throws when the table has no such cell. -/
def getCellData : Table → Except String (Option String)
  | _ :: (c :: _) :: _ => .ok c.data
  | _ => .error tyErrUndefData

/-- The evolving state of `main`: the summary table under construction,
the two keyed detail-table maps, and the running totals. -/
structure MainState where
  summaryTable : Table
  failures : List (String × Table)
  skips : List (String × Table)
  total : SummaryTotal
  deriving DecidableEq, Repr

def initMainState : MainState := ⟨createSummaryTable, [], [], initTotal⟩

/-- `table && table[1][0].data`: the "where" label of an optional detail
table — `none` both when the table is absent (JavaScript `null`) and
when the first cell holds `undefined`. -/
def whereOf : Option Table → Except String (Option String)
  | none => .ok none
  | some t => getCellData t

/-- `failures[failureWhere] = failure`: registers a produced failure
table under its "where" key (a JavaScript `undefined` key stringifies to
`"undefined"`). -/
def regFailures (m : List (String × Table)) (xf : Option Table) (fw : Option String) :
    List (String × Table) :=
  match xf with
  | some t => objSet m (fw.getD "undefined") t
  | none => m

/-- `if (showSkipped && skip) skips[skipWhere] = skip`. -/
def regSkips (showSkipped : Bool) (m : List (String × Table)) (xs : Option Table)
    (sw : Option String) : List (String × Table) :=
  if showSkipped then
    match xs with
    | some t => objSet m (sw.getD "undefined") t
    | none => m
  else m

/-- The body of `files.forEach(...)` for one parsed file: compute
`failureWhere`/`skipWhere`, build the summary row (accumulating totals),
append it, and register the detail tables under their "where" keys. -/
def processSuite (showSkipped : Bool) (st : MainState) (x : XMLData) : Except String MainState :=
  match whereOf x.failure with
  | .error e => .error e
  | .ok fw =>
    match whereOf x.skip with
    | .error e => .error e
    | .ok sw =>
      match rowFold showSkipped fw sw [] st.total x.summary with
      | .error e => .error e
      | .ok (row, tot) =>
        .ok ⟨st.summaryTable ++ [row], regFailures st.failures x.failure fw,
             regSkips showSkipped st.skips x.skip sw, tot⟩

/-- One discovered report file, as the loader hands it to `parseXML`:
either a decoded `<testsuite>` tree, or a read/parse error (malformed
XML or a missing root element), whose message the parser callback
throws. -/
inductive ReportFile where
  | ok (s : XMLSuite)
  | bad (msg : String)
  deriving DecidableEq, Repr

/-- `fs.readFileSync` + `parser.parseString` for one file. -/
def readAndParse : ReportFile → Except String XMLData
  | .ok s => parseXML s
  | .bad m => .error m

/-- The `files.forEach(...)` loop: each file is read, parsed and folded
into the state; the first thrown error aborts the whole loop. -/
def suiteFold (showSkipped : Bool) : MainState → List ReportFile → Except String MainState
  | st, [] => .ok st
  | st, f :: rest =>
    match readAndParse f with
    | .error e => .error e
    | .ok x =>
      match processSuite showSkipped st x with
      | .error e => .error e
      | .ok st' => suiteFold showSkipped st' rest

/-- The whole file loop starting from the fresh state. -/
def mainFold (showSkipped : Bool) (files : List ReportFile) : Except String MainState :=
  suiteFold showSkipped initMainState files

/-- `parseBoolean(value)`. -/
def parseBoolean (v : String) : Bool := v == "true"

/-- The top-level report heading: `"Android Test Report"`, with
`" - <postfix>"` appended when the header-postfix input is non-empty. -/
def titleOf (tp : String) : String :=
  if tp.length > 0 then "Android Test Report - " ++ tp else "Android Test Report"

/-- The raw notice added when no report file was discovered. -/
def noticeText : String :=
  "No test reports found. Please verify the tests were executed successfully. Android Test Report Action failed the job."

/-- The totals row pushed after the loop: `Object.entries(summaryTotal)`
in insertion order (`name`, `tests`, `skipped`, `failures`, `errors`,
`timestamp`, `time`), each value stringified. -/
def mkTotalRow (t : SummaryTotal) : Row :=
  [⟨some "Total", false⟩, ⟨some (jsNumToString t.tests), false⟩,
   ⟨some (jsNumToString t.skipped), false⟩, ⟨some (jsNumToString t.failures), false⟩,
   ⟨some (jsNumToString t.errors), false⟩, ⟨some "N/A", false⟩,
   ⟨some (jsNumToString t.time), false⟩]

/-- An abstract block of the emitted report (one `core.summary.addX`
call). -/
inductive Block where
  | heading (level : ℕ) (text : String)
  | table (t : Table)
  | raw (s : String)
  deriving DecidableEq, Repr

/-- The heading text of a failure detail section for key `w`, carrying
the forward anchor id and the back link. -/
def failureHeadingText (w : String) : String :=
  "Failures in <code>" ++ w ++ "</code> <a id=\"" ++ anchorIdStr w failurePfix false ++
    "\" href=\"" ++ jumpLinkStr w failurePfix true ++ "\">🔗(Back)</a>"

/-- The heading text of a skip detail section for key `w`. -/
def skipHeadingText (w : String) : String :=
  "Skipped in <code>" ++ w ++ "</code> <a id=\"" ++ anchorIdStr w skipPfix false ++
    "\" href=\"" ++ jumpLinkStr w skipPfix true ++ "\">🔗(Back)</a>"

/-- `Object.entries(map).forEach`: one heading and one table per
registered detail table, in insertion order. -/
def sectionBlocks (h : String → String) : List (String × Table) → List Block
  | [] => []
  | (w, t) :: rest => Block.heading 2 (h w) :: Block.table t :: sectionBlocks h rest

/-- The raw action inputs `show-skipped` and `report-header-postfix`. -/
structure Config where
  showSkippedInput : String
  headerTail : String
  deriving DecidableEq, Repr

/-- `main(baseDir)` as a function from the discovered files to the block
sequence handed to the summary sink: heading, optional empty-result
notice, the summary heading and table (totals row appended), then the
failure sections and — when skip reporting is on — the skip sections. -/
def mainBody (cfg : Config) (files : List ReportFile) : Except String (List Block) :=
  let showSkipped := parseBoolean cfg.showSkippedInput
  match mainFold showSkipped files with
  | .error e => .error e
  | .ok st =>
    .ok ([Block.heading 1 (titleOf cfg.headerTail)]
      ++ (if files.length = 0 then [Block.raw noticeText] else [])
      ++ [Block.heading 2 "Summary", Block.table (st.summaryTable ++ [mkTotalRow st.total])]
      ++ sectionBlocks failureHeadingText st.failures
      ++ (if showSkipped then sectionBlocks skipHeadingText st.skips else []))

/-- The observable outcome of one run: the blocks persisted by
`core.summary.write()` (`written = false` when the write was never
reached), whether `core.setFailed` ran, and the failure message. -/
structure RunResult where
  blocks : List Block
  failed : Bool
  written : Bool
  errMsg : Option String
  deriving DecidableEq, Repr

/-- The top-level `try { main(baseDir); await core.summary.write() }
catch (error) { core.setFailed(error.message) }`.  On an error the
summary buffer (only the title heading was added before the loop) is
never written. -/
def runAction (cfg : Config) (files : List ReportFile) : RunResult :=
  match mainBody cfg files with
  | .ok bs => ⟨bs, false, true, none⟩
  | .error e => ⟨[Block.heading 1 (titleOf cfg.headerTail)], true, false, some e⟩

/-- Whether a run failed with a `TypeError`. -/
def isTypeError (r : RunResult) : Bool :=
  match r.errMsg with
  | some m => textHasLead "TypeError" m
  | none => false

/-! ## Specification-side derived quantities -/

/-- The declared count attribute `k` of a suite, coerced with `parseInt`
and defaulting to 0 when absent. -/
def declCount (s : XMLSuite) (k : String) : JSNum :=
  match alookup s.attrs k with
  | some v => jsParseInt v
  | none => .num 0

/-- The declared elapsed time of a suite, parsed as a floating-point
number (the `time` attribute, defaulting to the string `"0"`). -/
def declTime (s : XMLSuite) : JSNum :=
  jsParseFloat ((alookup s.attrs "time").getD "0")

/-- Sum of a list of JavaScript numbers. -/
def jsSumList : List JSNum → JSNum
  | [] => .num 0
  | a :: t => a + jsSumList t

/-- The totals part of the row loop in isolation: folding every summary
entry into the accumulator. -/
def totRun : SummaryTotal → List (String × JSVal) → SummaryTotal
  | tot, [] => tot
  | tot, (k, v) :: rest => totRun (totalsAdd tot k v) rest

/-- The cells part of the row loop in isolation. -/
def cellsM (showSkipped : Bool) (fw sw : Option String) :
    List (String × JSVal) → Except String Row
  | [] => .ok []
  | (k, v) :: rest =>
    match buildCell showSkipped fw sw k v with
    | .error e => .error e
    | .ok c =>
      match cellsM showSkipped fw sw rest with
      | .error e => .error e
      | .ok cs => .ok (c :: cs)

/-- All values stored under key `k`, in order. -/
def keyVals : List (String × α) → String → List α
  | [], _ => []
  | (k', v) :: t, k => if k' = k then v :: keyVals t k else keyVals t k

/-- The per-entry contribution of key `k` to the integer totals. -/
def countContrib (k : String) (sd : List (String × JSVal)) : JSNum :=
  jsSumList ((keyVals sd k).map JSVal.toNum)

/-- The per-entry contribution of the `time` key to the time total. -/
def timeContrib (sd : List (String × JSVal)) : JSNum :=
  jsSumList ((keyVals sd "time").map JSVal.pFloat)

/-- Key uniqueness of an insertion-ordered map (JavaScript objects have
unique keys; XML attribute names are unique within an element). -/
def KeysND (l : List (String × α)) : Prop := (l.map Prod.fst).Nodup

instance (l : List (String × α)) : Decidable (KeysND l) :=
  inferInstanceAs (Decidable ((l.map Prod.fst).Nodup))

/-- The key/table pair a suite registers in the failure map, if any:
`parseXML` output's failure table under its "where" label. -/
def suiteFailEntry (s : XMLSuite) : Option (String × Table) :=
  match parseXML s with
  | .error _ => none
  | .ok x =>
    match x.failure with
    | none => none
    | some t =>
      match getCellData t with
      | .ok w => some (w.getD "undefined", t)
      | .error _ => none

/-- Last-write-wins fold of the registered failure entries: the table
the final map holds at key `w`, starting from `acc`. -/
def lastFailFrom (w : String) (acc : Option Table) : List XMLSuite → Option Table
  | [] => acc
  | s :: rest =>
    match suiteFailEntry s with
    | some e => lastFailFrom w (if e.1 = w then some e.2 else acc) rest
    | none => lastFailFrom w acc rest

/-- The failure table the last colliding suite (in discovery order)
produced for key `w`. -/
def lastFailTableFor (w : String) (ss : List XMLSuite) : Option Table :=
  lastFailFrom w none ss

/-! ## Basic lemmas: JavaScript numbers -/

theorem JSNum.add_def (a b : JSNum) : a + b = JSNum.add a b := rfl

theorem JSNum.add_assoc (a b c : JSNum) : a + b + c = a + (b + c) := by
  cases a <;> cases b <;> cases c <;> simp [JSNum.add_def, JSNum.add]
  ring

theorem JSNum.add_zero_right (a : JSNum) : a + JSNum.num 0 = a := by
  cases a <;> simp [JSNum.add_def, JSNum.add]

theorem JSNum.zero_add_left (a : JSNum) : JSNum.num 0 + a = a := by
  cases a <;> simp [JSNum.add_def, JSNum.add]

/-! ## Basic lemmas: insertion-ordered maps -/

theorem alookup_objSet_self (l : List (String × α)) (k : String) (v : α) :
    alookup (objSet l k v) k = some v := by
  induction l with
  | nil => simp [objSet, alookup]
  | cons h t ih =>
    by_cases hk : h.1 = k
    · simp [objSet, hk, alookup]
    · simp [objSet, hk, alookup, ih]

theorem alookup_objSet_ne (l : List (String × α)) (k k' : String) (v : α) (h : k' ≠ k) :
    alookup (objSet l k v) k' = alookup l k' := by
  have h' : k ≠ k' := Ne.symm h
  induction l with
  | nil => simp [objSet, alookup, h']
  | cons hd t ih =>
    by_cases hk : hd.1 = k
    · subst hk
      simp [objSet, alookup, h']
    · by_cases hk' : hd.1 = k'
      · simp [objSet, hk, alookup, hk', h, h']
      · simp [objSet, hk, alookup, hk', ih]

theorem alookup_objSet (m : List (String × α)) (k w : String) (v : α) :
    alookup (objSet m k v) w = if k = w then some v else alookup m w := by
  by_cases h : k = w
  · subst h
    rw [if_pos rfl]
    exact alookup_objSet_self m k v
  · rw [if_neg h]
    exact alookup_objSet_ne m k w v (fun hc => h hc.symm)

theorem objSet_fst_or (l : List (String × α)) (k : String) (v : α) :
    (objSet l k v).map Prod.fst = l.map Prod.fst ∨
    (objSet l k v).map Prod.fst = l.map Prod.fst ++ [k] := by
  induction l with
  | nil => right; simp [objSet]
  | cons hd t ih =>
    by_cases hk : hd.1 = k
    · left; simp [objSet, hk]
    · rcases ih with h | h
      · left; simp [objSet, hk, h]
      · right; simp [objSet, hk, h]

theorem keysND_objSet (l : List (String × α)) (k : String) (v : α) (h : KeysND l) :
    KeysND (objSet l k v) := by
  induction l with
  | nil => simp [KeysND, objSet]
  | cons hd t ih =>
    unfold KeysND at h ⊢
    simp only [List.map_cons, List.nodup_cons] at h
    by_cases hk : hd.1 = k
    · subst hk
      simpa [objSet, List.nodup_cons] using h
    · have ht := ih h.2
      rcases objSet_fst_or t k v with he | he <;>
        simp_all [objSet, KeysND, List.nodup_cons, he]

theorem alookup_none_iff (l : List (String × α)) (k : String) :
    alookup l k = none ↔ k ∉ l.map Prod.fst := by
  induction l with
  | nil => simp [alookup]
  | cons hd t ih =>
    by_cases hk : hd.1 = k
    · simp [alookup, hk]
    · have hk2 : k ≠ hd.1 := fun hh => hk hh.symm
      simp [alookup, hk, ih, hk2]

theorem mem_of_alookup_some (l : List (String × α)) (k : String) (v : α)
    (h : alookup l k = some v) : (k, v) ∈ l := by
  induction l with
  | nil => simp [alookup] at h
  | cons hd t ih =>
    obtain ⟨k1, v1⟩ := hd
    by_cases hk : k1 = k
    · subst hk
      rw [show alookup ((k1, v1) :: t) k1 = some v1 from by simp [alookup]] at h
      injection h with h
      subst h
      exact List.mem_cons_self _ _
    · rw [show alookup ((k1, v1) :: t) k = alookup t k from by simp [alookup, hk]] at h
      exact List.mem_cons_of_mem _ (ih h)

theorem keyVals_of_nodup (l : List (String × α)) (k : String) (h : KeysND l) :
    keyVals l k = match alookup l k with | some v => [v] | none => [] := by
  induction l with
  | nil => simp [keyVals, alookup]
  | cons hd t ih =>
    unfold KeysND at h
    simp only [List.map_cons, List.nodup_cons] at h
    by_cases hk : hd.1 = k
    · subst hk
      have : alookup t hd.1 = none := (alookup_none_iff t hd.1).2 h.1
      simp [keyVals, alookup, ih h.2, this]
    · simp [keyVals, alookup, hk, ih h.2]

/-! ## Lemmas about the attribute loop -/

theorem keysND_applyAttrs (attrs : List (String × String)) :
    ∀ sd : List (String × JSVal), KeysND sd → KeysND (applyAttrs sd attrs) := by
  induction attrs with
  | nil => intro sd h; simpa [applyAttrs] using h
  | cons hd rest ih =>
    intro sd h
    rw [applyAttrs]
    apply ih
    unfold applyAttr
    split
    · exact h
    · exact keysND_objSet _ _ _ h

theorem applyAttrs_fst_ext (attrs : List (String × String)) :
    ∀ sd : List (String × JSVal),
      ∃ ext, (applyAttrs sd attrs).map Prod.fst = sd.map Prod.fst ++ ext := by
  induction attrs with
  | nil => intro sd; exact ⟨[], by simp [applyAttrs]⟩
  | cons hd rest ih =>
    intro sd
    rw [applyAttrs]
    unfold applyAttr
    by_cases hh : hd.1 = "hostname"
    · rw [if_pos hh]
      exact ih sd
    · rw [if_neg hh]
      obtain ⟨ext, hext⟩ := ih (objSet sd hd.1 (coerceAttr hd.1 hd.2))
      rcases objSet_fst_or sd hd.1 (coerceAttr hd.1 hd.2) with ho | ho
      · rw [ho] at hext; exact ⟨ext, hext⟩
      · rw [ho] at hext
        exact ⟨[hd.1] ++ ext, by simpa using hext⟩

theorem alookup_applyAttrs (attrs : List (String × String)) (k : String)
    (hh : k ≠ "hostname") (hnd : KeysND attrs) :
    ∀ sd : List (String × JSVal),
      alookup (applyAttrs sd attrs) k =
        match alookup attrs k with
        | some v => some (coerceAttr k v)
        | none => alookup sd k := by
  induction attrs with
  | nil => intro sd; simp [applyAttrs, alookup]
  | cons hd rest ih =>
    intro sd
    obtain ⟨k1, v1⟩ := hd
    unfold KeysND at hnd
    simp only [List.map_cons, List.nodup_cons] at hnd
    rw [applyAttrs]
    by_cases h1 : k1 = k
    · subst h1
      have hrest : alookup rest k1 = none := (alookup_none_iff rest k1).2 hnd.1
      have hne : ¬(k1 = "hostname") := hh
      rw [ih hnd.2]
      simp [alookup, hrest, applyAttr, hne, alookup_objSet_self]
    · rw [ih hnd.2]
      have : alookup ((k1, v1) :: rest) k = alookup rest k := by simp [alookup, h1]
      rw [this]
      cases halo : alookup rest k
      · simp only []
        unfold applyAttr
        split
        · rfl
        · exact alookup_objSet_ne sd k1 k _ (fun hc => h1 hc.symm)
      · rfl

theorem keysND_initSummaryData : KeysND initSummaryData := by
  unfold KeysND
  decide

/-- The value `summaryData` ends up holding for a declared count key. -/
theorem summary_count (s : XMLSuite) (k : String) (hnd : KeysND s.attrs)
    (hk : isCountKey k = true) :
    alookup (applyAttrs initSummaryData s.attrs) k = some (.num (declCount s k)) := by
  have hk' : k = "tests" ∨ k = "skipped" ∨ k = "failures" ∨ k = "errors" := by
    simp only [isCountKey, Bool.or_eq_true, decide_eq_true_eq] at hk
    tauto
  have hh : k ≠ "hostname" := by
    rcases hk' with rfl | rfl | rfl | rfl <;> decide
  rw [alookup_applyAttrs s.attrs k hh hnd]
  unfold declCount
  cases halo : alookup s.attrs k
  · rcases hk' with rfl | rfl | rfl | rfl <;> rfl
  · simp [coerceAttr, hk]

/-- The value `summaryData` ends up holding for the `time` key. -/
theorem summary_time (s : XMLSuite) (hnd : KeysND s.attrs) :
    alookup (applyAttrs initSummaryData s.attrs) "time" =
      some (.str ((alookup s.attrs "time").getD "0")) := by
  rw [alookup_applyAttrs s.attrs "time" (by decide) hnd]
  cases halo : alookup s.attrs "time"
  · rfl
  · simp [coerceAttr, isCountKey]

/-! ## Lemmas about the row/totals loop -/

theorem totalsAdd_tests (tot : SummaryTotal) (k : String) (v : JSVal) :
    (totalsAdd tot k v).tests = if k = "tests" then tot.tests + v.toNum else tot.tests := by
  unfold totalsAdd
  split_ifs <;> simp_all

theorem totalsAdd_skipped (tot : SummaryTotal) (k : String) (v : JSVal) :
    (totalsAdd tot k v).skipped = if k = "skipped" then tot.skipped + v.toNum else tot.skipped := by
  unfold totalsAdd
  split_ifs <;> simp_all

theorem totalsAdd_failures (tot : SummaryTotal) (k : String) (v : JSVal) :
    (totalsAdd tot k v).failures =
      if k = "failures" then tot.failures + v.toNum else tot.failures := by
  unfold totalsAdd
  split_ifs <;> simp_all

theorem totalsAdd_errors (tot : SummaryTotal) (k : String) (v : JSVal) :
    (totalsAdd tot k v).errors = if k = "errors" then tot.errors + v.toNum else tot.errors := by
  unfold totalsAdd
  split_ifs <;> simp_all

theorem totalsAdd_time (tot : SummaryTotal) (k : String) (v : JSVal) :
    (totalsAdd tot k v).time = if k = "time" then tot.time + v.pFloat else tot.time := by
  unfold totalsAdd
  split_ifs <;> simp_all

theorem totRun_tests (sd : List (String × JSVal)) :
    ∀ tot, (totRun tot sd).tests = tot.tests + countContrib "tests" sd := by
  induction sd with
  | nil => intro tot; simp [totRun, countContrib, keyVals, jsSumList, JSNum.add_zero_right]
  | cons hd rest ih =>
    intro tot
    obtain ⟨k, v⟩ := hd
    rw [totRun, ih, totalsAdd_tests]
    by_cases h : k = "tests"
    · subst h
      simp [countContrib, keyVals, jsSumList, JSNum.add_assoc]
    · simp [countContrib, keyVals, h]

theorem totRun_skipped (sd : List (String × JSVal)) :
    ∀ tot, (totRun tot sd).skipped = tot.skipped + countContrib "skipped" sd := by
  induction sd with
  | nil => intro tot; simp [totRun, countContrib, keyVals, jsSumList, JSNum.add_zero_right]
  | cons hd rest ih =>
    intro tot
    obtain ⟨k, v⟩ := hd
    rw [totRun, ih, totalsAdd_skipped]
    by_cases h : k = "skipped"
    · subst h
      simp [countContrib, keyVals, jsSumList, JSNum.add_assoc]
    · simp [countContrib, keyVals, h]

theorem totRun_failures (sd : List (String × JSVal)) :
    ∀ tot, (totRun tot sd).failures = tot.failures + countContrib "failures" sd := by
  induction sd with
  | nil => intro tot; simp [totRun, countContrib, keyVals, jsSumList, JSNum.add_zero_right]
  | cons hd rest ih =>
    intro tot
    obtain ⟨k, v⟩ := hd
    rw [totRun, ih, totalsAdd_failures]
    by_cases h : k = "failures"
    · subst h
      simp [countContrib, keyVals, jsSumList, JSNum.add_assoc]
    · simp [countContrib, keyVals, h]

theorem totRun_errors (sd : List (String × JSVal)) :
    ∀ tot, (totRun tot sd).errors = tot.errors + countContrib "errors" sd := by
  induction sd with
  | nil => intro tot; simp [totRun, countContrib, keyVals, jsSumList, JSNum.add_zero_right]
  | cons hd rest ih =>
    intro tot
    obtain ⟨k, v⟩ := hd
    rw [totRun, ih, totalsAdd_errors]
    by_cases h : k = "errors"
    · subst h
      simp [countContrib, keyVals, jsSumList, JSNum.add_assoc]
    · simp [countContrib, keyVals, h]

theorem totRun_time (sd : List (String × JSVal)) :
    ∀ tot, (totRun tot sd).time = tot.time + timeContrib sd := by
  induction sd with
  | nil => intro tot; simp [totRun, timeContrib, keyVals, jsSumList, JSNum.add_zero_right]
  | cons hd rest ih =>
    intro tot
    obtain ⟨k, v⟩ := hd
    rw [totRun, ih, totalsAdd_time]
    by_cases h : k = "time"
    · subst h
      simp [timeContrib, keyVals, jsSumList, JSNum.add_assoc]
    · simp [timeContrib, keyVals, h]

theorem rowFold_ok (showSkipped : Bool) (fw sw : Option String)
    (sd : List (String × JSVal)) :
    ∀ row tot row' tot', rowFold showSkipped fw sw row tot sd = .ok (row', tot') →
      (∃ cells, cellsM showSkipped fw sw sd = .ok cells ∧ row' = row ++ cells) ∧
        tot' = totRun tot sd := by
  induction sd with
  | nil =>
    intro row tot row' tot' h
    rw [rowFold] at h
    injection h with h
    injection h with h1 h2
    subst h1; subst h2
    exact ⟨⟨[], rfl, by simp⟩, rfl⟩
  | cons hd rest ih =>
    intro row tot row' tot' h
    obtain ⟨k, v⟩ := hd
    rw [rowFold] at h
    cases hb : buildCell showSkipped fw sw k v with
    | error e => rw [hb] at h; exact absurd h (by simp)
    | ok c =>
      rw [hb] at h
      obtain ⟨⟨cells, hc, hr⟩, ht⟩ := ih _ _ _ _ h
      refine ⟨⟨c :: cells, ?_, ?_⟩, ?_⟩
      · rw [cellsM, hb, hc]
      · simp [hr]
      · rw [ht, totRun]

/-! ## Lemmas about the per-file step and the file loop -/

theorem parseXML_ok (s : XMLSuite) (x : XMLData) (h : parseXML s = .ok x) :
    ∃ et st, caseFold none none s.testcase = .ok (et, st) ∧
      x = ⟨applyAttrs initSummaryData s.attrs, et, st⟩ := by
  unfold parseXML at h
  cases hc : caseFold none none s.testcase with
  | error e => rw [hc] at h; exact absurd h (by simp)
  | ok p =>
    rw [hc] at h
    obtain ⟨et, st⟩ := p
    injection h with h
    exact ⟨et, st, rfl, h.symm⟩

theorem processSuite_ok (f : Bool) (st : MainState) (x : XMLData) (st' : MainState)
    (h : processSuite f st x = .ok st') :
    ∃ fw sw row tot, whereOf x.failure = .ok fw ∧ whereOf x.skip = .ok sw ∧
      rowFold f fw sw [] st.total x.summary = .ok (row, tot) ∧
      st' = ⟨st.summaryTable ++ [row], regFailures st.failures x.failure fw,
             regSkips f st.skips x.skip sw, tot⟩ := by
  unfold processSuite at h
  split at h
  · exact absurd h (by simp)
  · rename_i fw h1
    split at h
    · exact absurd h (by simp)
    · rename_i sw h2
      split at h
      · exact absurd h (by simp)
      · rename_i row tot h3
        injection h with h
        exact ⟨fw, sw, row, tot, h1, h2, h3, h.symm⟩

theorem countContrib_summary (s : XMLSuite) (k : String) (hnd : KeysND s.attrs)
    (hk : isCountKey k = true) :
    countContrib k (applyAttrs initSummaryData s.attrs) = declCount s k := by
  have h1 := summary_count s k hnd hk
  have h2 : KeysND (applyAttrs initSummaryData s.attrs) :=
    keysND_applyAttrs _ _ keysND_initSummaryData
  rw [countContrib, keyVals_of_nodup _ _ h2, h1]
  simp [jsSumList, JSVal.toNum, JSNum.add_zero_right]

theorem timeContrib_summary (s : XMLSuite) (hnd : KeysND s.attrs) :
    timeContrib (applyAttrs initSummaryData s.attrs) = declTime s := by
  have h1 := summary_time s hnd
  have h2 : KeysND (applyAttrs initSummaryData s.attrs) :=
    keysND_applyAttrs _ _ keysND_initSummaryData
  rw [timeContrib, keyVals_of_nodup _ _ h2, h1]
  simp [jsSumList, JSVal.pFloat, JSNum.add_zero_right, declTime]

/-- The one-suite effect on the totals. -/
theorem processSuite_total (f : Bool) (st : MainState) (s : XMLSuite) (x : XMLData)
    (st' : MainState) (hx : parseXML s = .ok x) (hnd : KeysND s.attrs)
    (h : processSuite f st x = .ok st') :
    st'.total.tests = st.total.tests + declCount s "tests" ∧
    st'.total.skipped = st.total.skipped + declCount s "skipped" ∧
    st'.total.failures = st.total.failures + declCount s "failures" ∧
    st'.total.errors = st.total.errors + declCount s "errors" ∧
    st'.total.time = st.total.time + declTime s := by
  obtain ⟨fw, sw, row, tot, _, _, hrow, hst⟩ := processSuite_ok f st x st' h
  obtain ⟨_, htot⟩ := rowFold_ok f fw sw x.summary [] st.total row tot hrow
  obtain ⟨et, skt, _, hxe⟩ := parseXML_ok s x hx
  have hsum : x.summary = applyAttrs initSummaryData s.attrs := by rw [hxe]
  subst hst
  simp only [htot, hsum]
  exact ⟨by rw [totRun_tests, countContrib_summary s _ hnd (by decide)],
    by rw [totRun_skipped, countContrib_summary s _ hnd (by decide)],
    by rw [totRun_failures, countContrib_summary s _ hnd (by decide)],
    by rw [totRun_errors, countContrib_summary s _ hnd (by decide)],
    by rw [totRun_time, timeContrib_summary s hnd]⟩

theorem suiteFold_total (f : Bool) (ss : List XMLSuite) :
    ∀ st st', suiteFold f st (ss.map ReportFile.ok) = .ok st' →
      (∀ s ∈ ss, KeysND s.attrs) →
      st'.total.tests
          = st.total.tests + jsSumList (ss.map (fun s => declCount s "tests")) ∧
      st'.total.skipped
          = st.total.skipped + jsSumList (ss.map (fun s => declCount s "skipped")) ∧
      st'.total.failures
          = st.total.failures + jsSumList (ss.map (fun s => declCount s "failures")) ∧
      st'.total.errors
          = st.total.errors + jsSumList (ss.map (fun s => declCount s "errors")) ∧
      st'.total.time = st.total.time + jsSumList (ss.map declTime) := by
  induction ss with
  | nil =>
    intro st st' h _
    rw [List.map_nil, suiteFold] at h
    injection h with h
    subst h
    simp [jsSumList, JSNum.add_zero_right]
  | cons s rest ih =>
    intro st st' h hnd
    rw [List.map_cons, suiteFold] at h
    split at h
    · exact absurd h (by simp)
    · rename_i x hx
      split at h
      · exact absurd h (by simp)
      · rename_i st1 hp
        have hx' : parseXML s = .ok x := hx
        obtain ⟨t1, t2, t3, t4, t5⟩ :=
          processSuite_total f st s x st1 hx' (hnd s (by simp)) hp
        obtain ⟨i1, i2, i3, i4, i5⟩ := ih st1 st' h (fun u hu => hnd u (by simp [hu]))
        refine ⟨?_, ?_, ?_, ?_, ?_⟩ <;>
          simp only [i1, i2, i3, i4, i5, t1, t2, t3, t4, t5, List.map_cons, jsSumList,
            JSNum.add_assoc]

/-! ## Sample inputs used to instantiate the proved statements -/

/-- A suite with five passing tests and no detail rows. -/
def sampleA : XMLSuite :=
  ⟨[("name", "SuiteA"), ("tests", "5"), ("skipped", "0"), ("failures", "0"),
    ("errors", "0"), ("timestamp", "t1"), ("time", "1.5"), ("hostname", "h")],
   [⟨[("name", "a.ok"), ("classname", "A"), ("time", "0.5")], none, false⟩]⟩

/-- A failed case used by the sample suites. -/
def caseFailB : XMLCase :=
  ⟨[("name", "com.example.MyTest"), ("classname", "C"), ("time", "0.1")],
   some ⟨some "m", some "ty", some "tr"⟩, false⟩

/-- A skipped case used by the sample suites. -/
def caseSkipB : XMLCase :=
  ⟨[("name", "sk1"), ("classname", "C"), ("time", "0")], none, true⟩

/-- A suite with one failed and one skipped case. -/
def sampleB : XMLSuite :=
  ⟨[("name", "SuiteB"), ("tests", "3"), ("skipped", "1"), ("failures", "1"),
    ("errors", "0"), ("time", "2.25")],
   [caseFailB, caseSkipB]⟩

/-- The state `main` reaches after folding `sampleA` and `sampleB`. -/
def sampleState : MainState :=
  match mainFold false ([sampleA, sampleB].map ReportFile.ok) with
  | .ok st => st
  | .error _ => initMainState

/-! ## C1 -/

/-- **C1.** For every sequence of suite records processed by `main`, the
Totals row's `tests`/`skipped`/`failures`/`errors` fields equal the exact
sums of the corresponding declared per-suite counts (each coerced with
`parseInt`, defaulting to 0 when absent), and its `time` field equals the
sum of the per-suite elapsed times parsed as floating point (exactly, in
the idealized rational arithmetic, hence within floating-point
tolerance). -/
theorem c1_totals_sum (showSkipped : Bool) (ss : List XMLSuite) (st : MainState)
    (hok : mainFold showSkipped (ss.map ReportFile.ok) = .ok st)
    (hnd : ∀ s ∈ ss, KeysND s.attrs) :
    st.total.tests = jsSumList (ss.map (fun s => declCount s "tests")) ∧
    st.total.skipped = jsSumList (ss.map (fun s => declCount s "skipped")) ∧
    st.total.failures = jsSumList (ss.map (fun s => declCount s "failures")) ∧
    st.total.errors = jsSumList (ss.map (fun s => declCount s "errors")) ∧
    st.total.time = jsSumList (ss.map declTime) := by
  obtain ⟨h1, h2, h3, h4, h5⟩ := suiteFold_total showSkipped ss initMainState st hok hnd
  refine ⟨?_, ?_, ?_, ?_, ?_⟩ <;>
    simp [h1, h2, h3, h4, h5, initMainState, initTotal, JSNum.zero_add_left]

/-- Witness for C1 on two concrete suites (5+3 tests, 0+1 skipped,
0+1 failures, 1.5+2.25 seconds). -/
theorem c1_totals_sum_witness :
    (∀ s ∈ [sampleA, sampleB], KeysND s.attrs) ∧
    mainFold false ([sampleA, sampleB].map ReportFile.ok) = .ok sampleState ∧
    (sampleState.total.tests = jsSumList ([sampleA, sampleB].map (fun s => declCount s "tests")) ∧
     sampleState.total.skipped
        = jsSumList ([sampleA, sampleB].map (fun s => declCount s "skipped")) ∧
     sampleState.total.failures
        = jsSumList ([sampleA, sampleB].map (fun s => declCount s "failures")) ∧
     sampleState.total.errors
        = jsSumList ([sampleA, sampleB].map (fun s => declCount s "errors")) ∧
     sampleState.total.time = jsSumList ([sampleA, sampleB].map declTime)) := by
  have hnd : ∀ s ∈ [sampleA, sampleB], KeysND s.attrs := by decide
  have hok : mainFold false ([sampleA, sampleB].map ReportFile.ok) = .ok sampleState := by rfl
  exact ⟨hnd, hok, c1_totals_sum false [sampleA, sampleB] sampleState hok hnd⟩

/-! ## C9 -/

/-- **C9.** The slug lowercases its label after inserting a separator
before each uppercase letter that follows a lowercase letter or digit,
then replaces every character that is not a lowercase letter or digit
with a separator: in particular `makeAnchorId` maps
`"com.example.MyTestClass"` to `"com-example-my-test-class"`, and every
slug consists solely of lowercase letters, digits and separators. -/
theorem c9_slug_behaviour :
    makeAnchorId ⟨some "com.example.MyTestClass", "", false⟩ = .ok "com-example-my-test-class" ∧
    ∀ lbl : String, (slug lbl).data.all (fun c => isLowerDigit c || c == '-') = true := by
  refine ⟨rfl, ?_⟩
  intro lbl
  show (dashNonAlnum (toLowerAll (camelSplit lbl.data))).all _ = true
  rw [List.all_eq_true]
  intro c hc
  simp only [dashNonAlnum, List.mem_map] at hc
  obtain ⟨c0, _, rfl⟩ := hc
  by_cases h : isLowerDigit c0 <;> simp [h]

/-! ## C3 -/

/-- With no discovered file the loop never errors, so the run reaches the
write: the emitted report is the title heading, the notice, the Summary
heading, and the summary table holding only its header row and the
all-zero totals row; `failed` stays false. -/
theorem c3_zero_files_report (cfg : Config) :
    runAction cfg [] =
      ⟨[Block.heading 1 (titleOf cfg.headerTail), Block.raw noticeText,
        Block.heading 2 "Summary", Block.table (createSummaryTable ++ [mkTotalRow initTotal])],
       false, true, none⟩ := by
  unfold runAction mainBody mainFold suiteFold
  simp [initMainState, sectionBlocks]

/-- **C3 (counterexample).** With zero report files the run does *not*
report failure (`core.setFailed` is never invoked: the notice text merely
claims failure) and the report is not just heading+notice: a Summary
heading and a summary table (header plus totals row) are also emitted. -/
theorem c3_counterexample :
    (runAction ⟨"false", ""⟩ []).failed = false ∧
    (runAction ⟨"false", ""⟩ []).blocks.length = 4 ∧
    Block.heading 2 "Summary" ∈ (runAction ⟨"false", ""⟩ []).blocks := by
  decide

/-! ## C4 -/

theorem suiteFold_stops_at_bad (f : Bool) (m : String) (l2 : List ReportFile) :
    ∀ (l1 : List ReportFile) (st : MainState),
      suiteFold f st (l1 ++ ReportFile.bad m :: l2) = suiteFold f st (l1 ++ [ReportFile.bad m]) := by
  intro l1
  induction l1 with
  | nil => intro st; rfl
  | cons f0 t ih =>
    intro st
    show suiteFold f st (f0 :: (t ++ ReportFile.bad m :: l2))
        = suiteFold f st (f0 :: (t ++ [ReportFile.bad m]))
    rw [suiteFold, suiteFold]
    cases hx : readAndParse f0 with
    | error e => simp [hx]
    | ok x =>
      simp only [hx]
      cases hp : processSuite f st x with
      | error e => simp [hp]
      | ok st1 =>
        simp only [hp]
        exact ih st1

theorem suiteFold_bad_is_error (f : Bool) (m : String) (l2 : List ReportFile) :
    ∀ (l1 : List ReportFile) (st : MainState),
      ∃ e, suiteFold f st (l1 ++ ReportFile.bad m :: l2) = .error e := by
  intro l1
  induction l1 with
  | nil => intro st; exact ⟨m, rfl⟩
  | cons f0 t ih =>
    intro st
    show ∃ e, suiteFold f st (f0 :: (t ++ ReportFile.bad m :: l2)) = .error e
    rw [suiteFold]
    cases hx : readAndParse f0 with
    | error e => exact ⟨e, by simp⟩
    | ok x =>
      cases hp : processSuite f st x with
      | error e => exact ⟨e, by simp [hp]⟩
      | ok st1 =>
        obtain ⟨e, he⟩ := ih st1
        exact ⟨e, by simp [hp, he]⟩

/-- A file that fails to decode makes the run fail immediately: the
result is the same whatever files follow the bad one (they are never
processed), `core.setFailed` runs, and — the amended part — the partial
report is *not* emitted, because the summary write after `main` is
skipped when `main` throws. -/
theorem c4_first_error_wins (cfg : Config) (pre rest : List ReportFile) (m : String) :
    runAction cfg (pre ++ ReportFile.bad m :: rest) = runAction cfg (pre ++ [ReportFile.bad m]) ∧
    (runAction cfg (pre ++ ReportFile.bad m :: rest)).failed = true ∧
    (runAction cfg (pre ++ ReportFile.bad m :: rest)).written = false := by
  obtain ⟨e, he⟩ :=
    suiteFold_bad_is_error (parseBoolean cfg.showSkippedInput) m rest pre initMainState
  have he2 : suiteFold (parseBoolean cfg.showSkippedInput) initMainState
      (pre ++ [ReportFile.bad m]) = .error e :=
    (suiteFold_stops_at_bad (parseBoolean cfg.showSkippedInput) m rest pre initMainState).symm.trans
      he
  have hb1 : mainBody cfg (pre ++ ReportFile.bad m :: rest) = .error e := by
    unfold mainBody mainFold
    simp [he]
  have hb2 : mainBody cfg (pre ++ [ReportFile.bad m]) = .error e := by
    unfold mainBody mainFold
    simp [he2]
  refine ⟨?_, ?_, ?_⟩
  · unfold runAction
    rw [hb1, hb2]
  · unfold runAction
    rw [hb1]
  · unfold runAction
    rw [hb1]

/-- **C4 (counterexample).** On a decode failure nothing is emitted to
the sink: the write is skipped, with only the unpersisted title heading
sitting in the buffer — the claim's "partial report is still emitted"
does not hold. -/
theorem c4_counterexample :
    (runAction ⟨"false", ""⟩ [ReportFile.bad "malformed"]).written = false ∧
    (runAction ⟨"false", ""⟩ [ReportFile.bad "malformed"]).failed = true ∧
    (runAction ⟨"false", ""⟩ [ReportFile.bad "malformed"]).blocks
        = [Block.heading 1 "Android Test Report"] := by
  decide

/-! ## C5 -/

theorem caseFold_no_failure (cs : List XMLCase) (h : ∀ c ∈ cs, c.failure = none) :
    ∀ et st, ∃ st', caseFold et st cs = .ok (et, st') := by
  induction cs with
  | nil => intro et st; exact ⟨st, rfl⟩
  | cons c rest ih =>
    intro et st
    have hc : c.failure = none := h c (by simp)
    obtain ⟨st', hst'⟩ := ih (fun u hu => h u (by simp [hu])) et (skipUpd st c)
    exact ⟨st', by rw [caseFold, hc]; exact hst'⟩

theorem caseFold_append (l1 l2 : List XMLCase) : ∀ et st,
    caseFold et st (l1 ++ l2) =
      match caseFold et st l1 with
      | .error e => .error e
      | .ok (et1, st1) => caseFold et1 st1 l2 := by
  induction l1 with
  | nil => intro et st; rfl
  | cons c rest ih =>
    intro et st
    show caseFold et st (c :: (rest ++ l2)) = _
    rw [caseFold, caseFold]
    cases hc : c.failure with
    | none =>
      simp only []
      exact ih et (skipUpd st c)
    | some f =>
      cases hr : caseFailureRow c f with
      | error e => simp [hr]
      | ok row =>
        simp only [hr]
        exact ih _ (skipUpd st c)

theorem caseFold_extends (cs : List XMLCase) :
    ∀ t0 st et' st', caseFold (some t0) st cs = .ok (et', st') →
      ∃ ext, et' = some (t0 ++ ext) := by
  induction cs with
  | nil =>
    intro t0 st et' st' h
    rw [caseFold] at h
    injection h with h
    injection h with h1 h2
    exact ⟨[], by simp [h1.symm]⟩
  | cons c rest ih =>
    intro t0 st et' st' h
    rw [caseFold] at h
    cases hc : c.failure with
    | none =>
      rw [hc] at h
      exact ih t0 (skipUpd st c) et' st' h
    | some f =>
      rw [hc] at h
      simp only [] at h
      cases hr : caseFailureRow c f with
      | error e => rw [hr] at h; exact absurd h (by simp)
      | ok row =>
        rw [hr] at h
        simp only [Option.getD_some] at h
        obtain ⟨ext, hext⟩ := ih (t0 ++ [row]) (skipUpd st c) et' st' h
        exact ⟨[row] ++ ext, by simpa using hext⟩

/-- **C5.** A suite containing at least one case with a failure element
produces exactly one failure detail table, whose first data row's first
column — the "where" label under which `main` registers the table — is
the name of the first failed case in original case order. -/
theorem c5_first_failure (s : XMLSuite) (pre rest : List XMLCase) (c : XMLCase)
    (f : FailureElem) (nm : String) (x : XMLData)
    (hsplit : s.testcase = pre ++ c :: rest)
    (hpre : ∀ p ∈ pre, p.failure = none)
    (hc : c.failure = some f)
    (hnm : alookup c.attrs "name" = some nm)
    (hok : parseXML s = .ok x) :
    ∃ tb r, x.failure = some tb ∧ tb.get? 1 = some r ∧
      r.get? 0 = some ⟨some nm, false⟩ ∧ getCellData tb = .ok (some nm) := by
  obtain ⟨et, skt, hcf, hxe⟩ := parseXML_ok s x hok
  rw [hsplit, caseFold_append pre (c :: rest) none none] at hcf
  obtain ⟨st1, hfoldpre⟩ := caseFold_no_failure pre hpre none none
  rw [hfoldpre] at hcf
  simp only [] at hcf
  rw [caseFold, hc] at hcf
  simp only [] at hcf
  cases htm : alookup c.attrs "time" with
  | none =>
    rw [show caseFailureRow c f = .error tyErrUndefToString from by
        unfold caseFailureRow; rw [htm]] at hcf
    exact absurd hcf (by simp)
  | some tm =>
    rw [show caseFailureRow c f
        = .ok [⟨some nm, false⟩, ⟨f.message, false⟩, ⟨f.ftype, false⟩,
               ⟨some tm, false⟩, ⟨f.stackTrace, false⟩] from by
        unfold caseFailureRow; rw [htm, hnm]] at hcf
    obtain ⟨ext, hext⟩ := caseFold_extends rest _ _ _ _ hcf
    refine ⟨(Option.getD none createFailureTable
        ++ [[⟨some nm, false⟩, ⟨f.message, false⟩, ⟨f.ftype, false⟩,
             ⟨some tm, false⟩, ⟨f.stackTrace, false⟩]]) ++ ext,
      [⟨some nm, false⟩, ⟨f.message, false⟩, ⟨f.ftype, false⟩,
       ⟨some tm, false⟩, ⟨f.stackTrace, false⟩], ?_, ?_, ?_, ?_⟩
    · rw [hxe]
      exact hext
    · simp [createFailureTable]
    · rfl
    · simp [createFailureTable, getCellData]

/-- The decoded data of `sampleB`. -/
def sampleBData : XMLData :=
  match parseXML sampleB with
  | .ok x => x
  | .error _ => ⟨[], none, none⟩

/-- Witness for C5 on `sampleB`, whose first failed case is named
`com.example.MyTest`. -/
theorem c5_first_failure_witness :
    (sampleB.testcase = [] ++ caseFailB :: [caseSkipB] ∧
     caseFailB.failure = some ⟨some "m", some "ty", some "tr"⟩ ∧
     alookup caseFailB.attrs "name" = some "com.example.MyTest" ∧
     parseXML sampleB = .ok sampleBData) ∧
    (∃ tb r, sampleBData.failure = some tb ∧ tb.get? 1 = some r ∧
      r.get? 0 = some ⟨some "com.example.MyTest", false⟩ ∧
      getCellData tb = .ok (some "com.example.MyTest")) := by
  refine ⟨⟨rfl, rfl, rfl, rfl⟩, ?_⟩
  exact c5_first_failure sampleB [] [caseSkipB] caseFailB ⟨some "m", some "ty", some "tr"⟩
    "com.example.MyTest" sampleBData rfl (by simp) rfl rfl rfl

/-! ## C7 -/

theorem cellsM_get (f : Bool) (fw sw : Option String) (sd : List (String × JSVal)) :
    ∀ cells, cellsM f fw sw sd = .ok cells →
      cells.length = sd.length ∧
      ∀ i k v, sd.get? i = some (k, v) →
        ∃ cOk, buildCell f fw sw k v = .ok cOk ∧ cells.get? i = some cOk := by
  induction sd with
  | nil =>
    intro cells h
    rw [cellsM] at h
    injection h with h
    subst h
    exact ⟨rfl, by intro i k v h; simp at h⟩
  | cons hd rest ih =>
    intro cells h
    obtain ⟨k0, v0⟩ := hd
    rw [cellsM] at h
    cases hb : buildCell f fw sw k0 v0 with
    | error e => rw [hb] at h; exact absurd h (by simp)
    | ok c =>
      rw [hb] at h
      simp only [] at h
      cases hcs : cellsM f fw sw rest with
      | error e => rw [hcs] at h; exact absurd h (by simp)
      | ok cs =>
        rw [hcs] at h
        injection h with h
        subst h
        obtain ⟨hlen, hidx⟩ := ih cs hcs
        refine ⟨by simp [hlen], ?_⟩
        intro i k v hget
        cases i with
        | zero =>
          injection hget with hget
          injection hget with h1 h2
          subst h1; subst h2
          exact ⟨c, hb, rfl⟩
        | succ n => exact hidx n k v hget

theorem alookup_of_get? (l : List (String × α)) :
    ∀ (i : ℕ) (k : String) (v : α), KeysND l → l.get? i = some (k, v) →
      alookup l k = some v := by
  induction l with
  | nil => intro i k v _ h; simp at h
  | cons hd t ih =>
    intro i k v hnd h
    unfold KeysND at hnd
    simp only [List.map_cons, List.nodup_cons] at hnd
    cases i with
    | zero =>
      injection h with h
      subst h
      simp [alookup]
    | succ n =>
      simp only [List.get?] at h
      have hkmem : k ∈ t.map Prod.fst := by
        have := List.get?_mem h
        exact List.mem_map.2 ⟨(k, v), this, rfl⟩
      have hne : hd.1 ≠ k := fun hc => hnd.1 (hc ▸ hkmem)
      rw [show alookup (hd :: t) k = alookup t k from by simp [alookup, hne]]
      exact ih n k v hnd.2 h

/-- The entry the summary-data object holds at a fixed header position:
position 3 is `failures`, position 4 is `errors` (extra declared
attributes are appended after position 6 and never displace them). -/
theorem summary_entry_at (s : XMLSuite) (hnd : KeysND s.attrs) (i : ℕ) (k : String)
    (hik : (initSummaryData.map Prod.fst).get? i = some k) (hck : isCountKey k = true) :
    (applyAttrs initSummaryData s.attrs).get? i = some (k, .num (declCount s k)) := by
  obtain ⟨ext, hext⟩ := applyAttrs_fst_ext s.attrs initSummaryData
  have hilen : i < (initSummaryData.map Prod.fst).length := by
    by_contra hge
    rw [List.get?_eq_none.2 (Nat.le_of_not_lt hge)] at hik
    exact absurd hik (by simp)
  have hkeys : ((applyAttrs initSummaryData s.attrs).map Prod.fst).get? i = some k := by
    rw [hext, List.get?_append hilen, hik]
  cases hsd : (applyAttrs initSummaryData s.attrs).get? i with
  | none =>
    rw [List.get?_map, hsd] at hkeys
    exact absurd hkeys (by simp)
  | some entry =>
    obtain ⟨k1, v1⟩ := entry
    rw [List.get?_map, hsd] at hkeys
    injection hkeys with hkeys
    simp only [Option.map_some] at hkeys
    have hk1 : k1 = k := hkeys
    subst hk1
    have hndsd : KeysND (applyAttrs initSummaryData s.attrs) :=
      keysND_applyAttrs _ _ keysND_initSummaryData
    have halo := alookup_of_get? _ i k1 v1 hndsd hsd
    rw [summary_count s k1 hnd hck] at halo
    injection halo with halo
    rw [← halo]

/-- A suite whose declared `failures` and `errors` counts are both zero
renders both cells as the literal `"0"` (no anchor markup); no failure
detail table exists or is registered *provided* no case carries a
failure element — a suite can declare zero counts yet still produce a
failure table from an actual failure child (see the counterexample). -/
theorem c7_zero_counts (showSkipped : Bool) (st st' : MainState) (s : XMLSuite) (x : XMLData)
    (hnd : KeysND s.attrs)
    (hf : declCount s "failures" = .num 0)
    (he : declCount s "errors" = .num 0)
    (hx : parseXML s = .ok x)
    (hps : processSuite showSkipped st x = .ok st') :
    (∃ row, st'.summaryTable = st.summaryTable ++ [row] ∧
      row.get? 3 = some ⟨some "0", false⟩ ∧ row.get? 4 = some ⟨some "0", false⟩) ∧
    ((∀ c ∈ s.testcase, c.failure = none) → x.failure = none ∧ st'.failures = st.failures) := by
  obtain ⟨fw, sw, row, tot, hfw, hsw, hrow, hst⟩ := processSuite_ok showSkipped st x st' hps
  obtain ⟨⟨cells, hcells, hroweq⟩, _⟩ := rowFold_ok showSkipped fw sw x.summary [] st.total row tot hrow
  obtain ⟨et, skt, hcf, hxe⟩ := parseXML_ok s x hx
  have hsum : x.summary = applyAttrs initSummaryData s.attrs := by rw [hxe]
  have h3 := summary_entry_at s hnd 3 "failures" rfl (by decide)
  have h4 := summary_entry_at s hnd 4 "errors" rfl (by decide)
  rw [hf] at h3
  rw [he] at h4
  obtain ⟨hlen, hidx⟩ := cellsM_get showSkipped fw sw x.summary cells hcells
  obtain ⟨c3, hb3, hg3⟩ := hidx 3 "failures" (.num (.num 0)) (by rw [hsum]; exact h3)
  obtain ⟨c4, hb4, hg4⟩ := hidx 4 "errors" (.num (.num 0)) (by rw [hsum]; exact h4)
  have hc3 : c3 = ⟨some "0", false⟩ := by
    have : buildCell showSkipped fw sw "failures" (.num (.num 0)) = .ok ⟨some "0", false⟩ := rfl
    rw [this] at hb3
    injection hb3 with hb3
    exact hb3.symm
  have hc4 : c4 = ⟨some "0", false⟩ := by
    have : buildCell showSkipped fw sw "errors" (.num (.num 0)) = .ok ⟨some "0", false⟩ := rfl
    rw [this] at hb4
    injection hb4 with hb4
    exact hb4.symm
  constructor
  · refine ⟨row, by rw [hst], ?_, ?_⟩
    · rw [hroweq]
      simp only [List.nil_append]
      rw [hg3, hc3]
    · rw [hroweq]
      simp only [List.nil_append]
      rw [hg4, hc4]
  · intro hnofail
    obtain ⟨st1, hcf'⟩ := caseFold_no_failure s.testcase hnofail none none
    rw [hcf'] at hcf
    injection hcf with hcf
    injection hcf with hcf1 hcf2
    have hxf : x.failure = none := by rw [hxe, hcf1]
    refine ⟨hxf, ?_⟩
    rw [hst]
    simp [regFailures, hxf]

/-- The decoded data of `sampleA`. -/
def sampleAData : XMLData :=
  match parseXML sampleA with
  | .ok x => x
  | .error _ => ⟨[], none, none⟩

/-- The state after processing only `sampleA`. -/
def sampleAState : MainState :=
  match processSuite false initMainState sampleAData with
  | .ok st => st
  | .error _ => initMainState

/-- Witness for (amended) C7 on `sampleA` (declared failures/errors are
zero and no case fails). -/
theorem c7_zero_counts_witness :
    (KeysND sampleA.attrs ∧ declCount sampleA "failures" = .num 0 ∧
     declCount sampleA "errors" = .num 0 ∧ parseXML sampleA = .ok sampleAData ∧
     processSuite false initMainState sampleAData = .ok sampleAState) ∧
    ((∃ row, sampleAState.summaryTable = initMainState.summaryTable ++ [row] ∧
        row.get? 3 = some ⟨some "0", false⟩ ∧ row.get? 4 = some ⟨some "0", false⟩) ∧
     ((∀ c ∈ sampleA.testcase, c.failure = none) →
        sampleAData.failure = none ∧ sampleAState.failures = initMainState.failures)) := by
  have h1 : KeysND sampleA.attrs := by decide
  have h2 : declCount sampleA "failures" = .num 0 := by decide
  have h3 : declCount sampleA "errors" = .num 0 := by decide
  have h4 : parseXML sampleA = .ok sampleAData := rfl
  have h5 : processSuite false initMainState sampleAData = .ok sampleAState := rfl
  exact ⟨⟨h1, h2, h3, h4, h5⟩,
    c7_zero_counts false initMainState sampleAState sampleA sampleAData h1 h2 h3 h4 h5⟩

/-- A suite declaring zero failures and errors whose single case still
carries a failure element. -/
def suiteZeroButFail : XMLSuite :=
  ⟨[("failures", "0"), ("errors", "0")],
   [⟨[("name", "t1"), ("time", "0.1")], some ⟨some "m", some "ty", some "st"⟩, false⟩]⟩

/-- **C7 (counterexample).** Declared failures/errors both zero does not
prevent a failure detail table: a case with a failure element still
produces one, it is registered in the failures map, and its detail
section is emitted. -/
theorem c7_counterexample :
    declCount suiteZeroButFail "failures" = .num 0 ∧
    declCount suiteZeroButFail "errors" = .num 0 ∧
    (parseXML suiteZeroButFail).map (fun x => x.failure.isSome) = .ok true ∧
    (mainFold false [ReportFile.ok suiteZeroButFail]).map (fun st => st.failures.length)
        = .ok 1 ∧
    Block.heading 2 (failureHeadingText "t1")
      ∈ (runAction ⟨"false", ""⟩ [ReportFile.ok suiteZeroButFail]).blocks := by
  exact ⟨by decide, by decide, rfl, rfl, by decide⟩

/-! ## C10 -/

theorem parseXML_no_failure (s : XMLSuite) (h : ∀ c ∈ s.testcase, c.failure = none) :
    ∃ x, parseXML s = .ok x ∧ x.failure = none ∧
      x.summary = applyAttrs initSummaryData s.attrs := by
  obtain ⟨st1, hcf⟩ := caseFold_no_failure s.testcase h none none
  exact ⟨⟨applyAttrs initSummaryData s.attrs, none, st1⟩,
    by unfold parseXML; rw [hcf], rfl, rfl⟩

theorem getCellData_error (t : Table) (e : String) (h : getCellData t = .error e) :
    e = tyErrUndefData := by
  unfold getCellData at h
  split at h
  · exact absurd h (by simp)
  · injection h with h
    exact h.symm

theorem whereOf_error (o : Option Table) (e : String) (h : whereOf o = .error e) :
    e = tyErrUndefData := by
  cases o with
  | none => exact absurd h (by simp [whereOf])
  | some t => exact getCellData_error t e h

theorem buildCell_error (f : Bool) (fw sw : Option String) (k : String) (v : JSVal)
    (e : String) (h : buildCell f fw sw k v = .error e) : e = tyErrNullWhere := by
  unfold buildCell makeJumpLink makeAnchorId at h
  cases fw <;> cases sw <;> split_ifs at h <;> simp_all [Except.map]

theorem buildCell_failures_null (f : Bool) (sw : Option String) (k : String) (v : JSVal)
    (hk : k = "failures" ∨ k = "errors") (hv : v.gtZero = true) :
    buildCell f none sw k v = .error tyErrNullWhere := by
  unfold buildCell
  rw [if_pos hk, if_pos hv]
  rfl

theorem rowFold_null_where (f : Bool) (sw : Option String) (sd : List (String × JSVal))
    (hmem : ∃ v, (("failures", v) ∈ sd ∨ ("errors", v) ∈ sd) ∧ v.gtZero = true) :
    ∀ row tot, rowFold f none sw row tot sd = .error tyErrNullWhere := by
  induction sd with
  | nil =>
    obtain ⟨v, hv, _⟩ := hmem
    rcases hv with hv | hv <;> simp at hv
  | cons hd rest ih =>
    intro row tot
    obtain ⟨k0, v0⟩ := hd
    rw [rowFold]
    cases hb : buildCell f none sw k0 v0 with
    | error e =>
      have he : e = tyErrNullWhere := buildCell_error f none sw k0 v0 e hb
      subst he
      simp
    | ok c =>
      obtain ⟨v, hv, hgt⟩ := hmem
      have hrest : ∃ v, (("failures", v) ∈ rest ∨ ("errors", v) ∈ rest) ∧ v.gtZero = true := by
        rcases hv with hv | hv <;> rcases List.mem_cons.1 hv with hhd | htl
        · exfalso
          have h1 : k0 = "failures" := (Prod.mk.injEq .. ▸ hhd.symm).1
          have h2 : v0 = v := (Prod.mk.injEq .. ▸ hhd.symm).2
          rw [buildCell_failures_null f sw k0 v0 (Or.inl h1) (h2 ▸ hgt)] at hb
          exact absurd hb (by simp)
        · exact ⟨v, Or.inl htl, hgt⟩
        · exfalso
          have h1 : k0 = "errors" := (Prod.mk.injEq .. ▸ hhd.symm).1
          have h2 : v0 = v := (Prod.mk.injEq .. ▸ hhd.symm).2
          rw [buildCell_failures_null f sw k0 v0 (Or.inr h1) (h2 ▸ hgt)] at hb
          exact absurd hb (by simp)
        · exact ⟨v, Or.inr htl, hgt⟩
      simp only [hb]
      exact ih hrest _ _

theorem processSuite_null_where (f : Bool) (st : MainState) (s : XMLSuite) (x : XMLData)
    (hxf : x.failure = none)
    (hsum : x.summary = applyAttrs initSummaryData s.attrs) (hnd : KeysND s.attrs)
    (hcnt : (declCount s "failures").gtZero = true ∨ (declCount s "errors").gtZero = true) :
    ∃ e, processSuite f st x = .error e ∧ textHasLead "TypeError" e = true := by
  unfold processSuite
  rw [hxf]
  rw [show whereOf none = (Except.ok none : Except String (Option String)) from rfl]
  simp only []
  cases hsw : whereOf x.skip with
  | error e =>
    have he : e = tyErrUndefData := whereOf_error x.skip e hsw
    subst he
    exact ⟨tyErrUndefData, rfl, by decide⟩
  | ok sw =>
    simp only []
    have hmem : ∃ v, (("failures", v) ∈ x.summary ∨ ("errors", v) ∈ x.summary) ∧
        v.gtZero = true := by
      rcases hcnt with hc | hc
      · refine ⟨.num (declCount s "failures"), Or.inl ?_, hc⟩
        rw [hsum]
        exact List.get?_mem (summary_entry_at s hnd 3 "failures" rfl (by decide))
      · refine ⟨.num (declCount s "errors"), Or.inr ?_, hc⟩
        rw [hsum]
        exact List.get?_mem (summary_entry_at s hnd 4 "errors" rfl (by decide))
    rw [rowFold_null_where f sw x.summary hmem [] st.total]
    exact ⟨tyErrNullWhere, by simp, by decide⟩

theorem suiteFold_append (f : Bool) (l1 l2 : List ReportFile) : ∀ st,
    suiteFold f st (l1 ++ l2) =
      match suiteFold f st l1 with
      | .error e => .error e
      | .ok st1 => suiteFold f st1 l2 := by
  induction l1 with
  | nil => intro st; rfl
  | cons f0 t ih =>
    intro st
    show suiteFold f st (f0 :: (t ++ l2)) = _
    rw [suiteFold, suiteFold]
    cases hx : readAndParse f0 with
    | error e => rfl
    | ok x =>
      simp only []
      cases hp : processSuite f st x with
      | error e => rfl
      | ok st1 => exact ih st1

/-- **C10.** A suite declaring a positive failures or errors count but
containing no case with a failure element makes `main` call the anchor
namer on a null "where" label while building the summary row: the run
throws a `TypeError`, reports failure, and produces no report. -/
theorem c10_null_where_label (cfg : Config) (pre rest : List ReportFile) (s : XMLSuite)
    (st0 : MainState)
    (hnf : ∀ c ∈ s.testcase, c.failure = none)
    (hcnt : (declCount s "failures").gtZero = true ∨ (declCount s "errors").gtZero = true)
    (hnd : KeysND s.attrs)
    (hpre : suiteFold (parseBoolean cfg.showSkippedInput) initMainState pre = .ok st0) :
    (runAction cfg (pre ++ ReportFile.ok s :: rest)).failed = true ∧
    (runAction cfg (pre ++ ReportFile.ok s :: rest)).written = false ∧
    isTypeError (runAction cfg (pre ++ ReportFile.ok s :: rest)) = true := by
  obtain ⟨x, hx, hxf, hsum⟩ := parseXML_no_failure s hnf
  obtain ⟨e, hpserr, hty⟩ :=
    processSuite_null_where (parseBoolean cfg.showSkippedInput) st0 s x hxf hsum hnd hcnt
  have hfold : suiteFold (parseBoolean cfg.showSkippedInput) initMainState
      (pre ++ ReportFile.ok s :: rest) = .error e := by
    rw [suiteFold_append _ pre _ initMainState, hpre]
    simp only []
    rw [suiteFold]
    rw [show readAndParse (ReportFile.ok s) = .ok x from hx]
    simp only []
    rw [hpserr]
  have hbody : mainBody cfg (pre ++ ReportFile.ok s :: rest) = .error e := by
    unfold mainBody mainFold
    simp [hfold]
  refine ⟨?_, ?_, ?_⟩
  · unfold runAction
    rw [hbody]
  · unfold runAction
    rw [hbody]
  · unfold isTypeError runAction
    rw [hbody]
    simpa using hty

/-- A suite declaring two failures but containing no cases at all. -/
def suiteCountNoCase : XMLSuite := ⟨[("failures", "2")], []⟩

/-- Witness for C10: a suite declaring `failures="2"` with no failing
case makes the run fail with a `TypeError`. -/
theorem c10_null_where_label_witness :
    ((∀ c ∈ suiteCountNoCase.testcase, c.failure = none) ∧
     (declCount suiteCountNoCase "failures").gtZero = true ∧
     KeysND suiteCountNoCase.attrs ∧
     suiteFold false initMainState [] = .ok initMainState) ∧
    ((runAction ⟨"false", ""⟩ ([] ++ ReportFile.ok suiteCountNoCase :: [])).failed = true ∧
     (runAction ⟨"false", ""⟩ ([] ++ ReportFile.ok suiteCountNoCase :: [])).written = false ∧
     isTypeError (runAction ⟨"false", ""⟩ ([] ++ ReportFile.ok suiteCountNoCase :: []))
        = true) := by
  have hnc : ∀ c ∈ suiteCountNoCase.testcase, c.failure = none := by
    intro c hc
    exact absurd hc (by simp [suiteCountNoCase])
  refine ⟨⟨hnc, by decide, by decide, rfl⟩, ?_⟩
  exact c10_null_where_label ⟨"false", ""⟩ [] [] suiteCountNoCase initMainState
    hnc (Or.inl (by decide)) (by decide) rfl

/-! ## C6 -/

theorem objSet_ne_nil (l : List (String × α)) (k : String) (v : α) : objSet l k v ≠ [] := by
  cases l with
  | nil => simp [objSet]
  | cons hd t =>
    unfold objSet
    split <;> simp

theorem caseFold_skip_isSome (cs : List XMLCase) :
    ∀ et st et' st', caseFold et st cs = .ok (et', st') →
      st'.isSome = (st.isSome || cs.any (fun c => c.skipped)) := by
  induction cs with
  | nil =>
    intro et st et' st' h
    rw [caseFold] at h
    injection h with h
    injection h with h1 h2
    subst h2
    simp
  | cons c rest ih =>
    intro et st et' st' h
    rw [caseFold] at h
    have hskip : (skipUpd st c).isSome = (st.isSome || c.skipped) := by
      unfold skipUpd
      cases hc : c.skipped <;> simp
    cases hcf : c.failure with
    | none =>
      rw [hcf] at h
      simp only [] at h
      rw [ih et (skipUpd st c) et' st' h, hskip]
      simp [Bool.or_assoc]
    | some f =>
      rw [hcf] at h
      simp only [] at h
      cases hr : caseFailureRow c f with
      | error e => rw [hr] at h; exact absurd h (by simp)
      | ok row =>
        rw [hr] at h
        simp only [] at h
        rw [ih _ (skipUpd st c) et' st' h, hskip]
        simp [Bool.or_assoc]

theorem parseXML_skip (s : XMLSuite) (x : XMLData) (h : parseXML s = .ok x) :
    x.skip.isSome = s.testcase.any (fun c => c.skipped) := by
  obtain ⟨et, skt, hcf, hxe⟩ := parseXML_ok s x h
  have hs := caseFold_skip_isSome s.testcase none none et skt hcf
  rw [hxe]
  simpa using hs

theorem regSkips_nil (f : Bool) (m : List (String × Table)) (xs : Option Table)
    (sw : Option String) :
    regSkips f m xs sw = [] ↔ (m = [] ∧ (f = false ∨ xs = none)) := by
  unfold regSkips
  cases f <;> cases xs <;> simp [objSet_ne_nil]

theorem suiteFold_skips_nil (f : Bool) (ss : List XMLSuite) :
    ∀ st st', suiteFold f st (ss.map ReportFile.ok) = .ok st' →
      (st'.skips = [] ↔
        (st.skips = [] ∧ (f = false ∨ ∀ s ∈ ss, ∀ c ∈ s.testcase, c.skipped = false))) := by
  induction ss with
  | nil =>
    intro st st' h
    rw [List.map_nil, suiteFold] at h
    injection h with h
    subst h
    simp
  | cons s rest ih =>
    intro st st' h
    rw [List.map_cons, suiteFold] at h
    split at h
    · exact absurd h (by simp)
    · rename_i x hx
      split at h
      · exact absurd h (by simp)
      · rename_i st1 hp
        have hx' : parseXML s = .ok x := hx
        obtain ⟨fw, sw, row, tot, _, _, _, hst⟩ := processSuite_ok f st x st1 hp
        have hsk1 : st1.skips = regSkips f st.skips x.skip sw := by rw [hst]
        have hxs : x.skip = none ↔ ∀ c ∈ s.testcase, c.skipped = false := by
          have h2 := parseXML_skip s x hx'
          constructor
          · intro hn c hc
            rw [hn] at h2
            have h3 : s.testcase.any (fun c => c.skipped) = false := h2.symm
            rw [List.any_eq_false] at h3
            simpa using h3 c hc
          · intro hall
            have h3 : s.testcase.any (fun c => c.skipped) = false := by
              rw [List.any_eq_false]
              intro c hc
              simp [hall c hc]
            rw [h3] at h2
            exact Option.not_isSome_iff_eq_none.1 (by simp [h2])
        rw [ih st1 st' h, hsk1, regSkips_nil, hxs]
        simp only [List.forall_mem_cons]
        tauto

/-- Skip detail sections in the emitted report are exactly the
(flag-gated) skip-map sections; with the flag off the skip map stays
empty, and with any flag the skip map is empty iff no processed suite
contains a skipped case or the flag is off.  Hence skip detail tables
appear iff skip reporting is enabled *and* at least one `Skipped` case
exists — not merely iff the flag is enabled. -/
theorem c6_skip_tables (cfg : Config) (ss : List XMLSuite) (st : MainState)
    (hok : mainFold (parseBoolean cfg.showSkippedInput) (ss.map ReportFile.ok) = .ok st) :
    mainBody cfg (ss.map ReportFile.ok) =
      .ok ([Block.heading 1 (titleOf cfg.headerTail)]
        ++ (if (ss.map ReportFile.ok).length = 0 then [Block.raw noticeText] else [])
        ++ [Block.heading 2 "Summary", Block.table (st.summaryTable ++ [mkTotalRow st.total])]
        ++ sectionBlocks failureHeadingText st.failures
        ++ (if parseBoolean cfg.showSkippedInput then sectionBlocks skipHeadingText st.skips
            else [])) ∧
    (parseBoolean cfg.showSkippedInput = false → st.skips = []) ∧
    (st.skips = [] ↔ (parseBoolean cfg.showSkippedInput = false ∨
        ∀ s ∈ ss, ∀ c ∈ s.testcase, c.skipped = false)) := by
  have hnil := suiteFold_skips_nil (parseBoolean cfg.showSkippedInput) ss initMainState st hok
  have hinit : initMainState.skips = [] := rfl
  refine ⟨?_, ?_, ?_⟩
  · unfold mainBody
    simp only []
    rw [hok]
  · intro hf
    rw [hnil]
    exact ⟨hinit, Or.inl hf⟩
  · rw [hnil]
    simp [hinit]

/-- The state `main` reaches on `[sampleA, sampleB]` with skip reporting
enabled. -/
def sampleStateSk : MainState :=
  match mainFold true ([sampleA, sampleB].map ReportFile.ok) with
  | .ok st => st
  | .error _ => initMainState

/-- Witness for (amended) C6: with the flag on, `sampleB`'s skipped case
makes the skip map non-empty, and it is empty iff no skipped case
exists or the flag is off. -/
theorem c6_skip_tables_witness :
    mainFold (parseBoolean "true") ([sampleA, sampleB].map ReportFile.ok) = .ok sampleStateSk ∧
    (mainBody ⟨"true", ""⟩ ([sampleA, sampleB].map ReportFile.ok) =
      .ok ([Block.heading 1 (titleOf "")]
        ++ (if ([sampleA, sampleB].map ReportFile.ok).length = 0 then [Block.raw noticeText]
            else [])
        ++ [Block.heading 2 "Summary",
            Block.table (sampleStateSk.summaryTable ++ [mkTotalRow sampleStateSk.total])]
        ++ sectionBlocks failureHeadingText sampleStateSk.failures
        ++ (if parseBoolean "true" then sectionBlocks skipHeadingText sampleStateSk.skips
            else [])) ∧
     (parseBoolean "true" = false → sampleStateSk.skips = []) ∧
     (sampleStateSk.skips = [] ↔ (parseBoolean "true" = false ∨
        ∀ s ∈ [sampleA, sampleB], ∀ c ∈ s.testcase, c.skipped = false))) := by
  have hok : mainFold (parseBoolean "true") ([sampleA, sampleB].map ReportFile.ok)
      = .ok sampleStateSk := rfl
  exact ⟨hok, c6_skip_tables ⟨"true", ""⟩ [sampleA, sampleB] sampleStateSk hok⟩

/-- **C6 (counterexample).** With skip reporting enabled but no skipped
case in the input, no skip detail table is produced: the skip map is
empty and the only table block in the report is the summary table — the
claimed "if and only if the flag is enabled, regardless of how many
Skipped cases exist" fails. -/
theorem c6_counterexample :
    parseBoolean "true" = true ∧
    (mainFold true [ReportFile.ok sampleA]).map (fun st => st.skips.length) = .ok 0 ∧
    ((runAction ⟨"true", ""⟩ [ReportFile.ok sampleA]).blocks.filter
        (fun b => match b with | Block.table _ => true | _ => false)).length = 1 := by
  exact ⟨rfl, rfl, by decide⟩

/-! ## C8 -/

/-- Whether an `Except` computation succeeded. -/
def isOkE : Except String α → Bool
  | .ok _ => true
  | .error _ => false

theorem rowFold_isOk (f : Bool) (fw sw : Option String) (sd : List (String × JSVal)) :
    ∀ row tot, isOkE (rowFold f fw sw row tot sd) = isOkE (cellsM f fw sw sd) := by
  induction sd with
  | nil => intro row tot; rfl
  | cons hd rest ih =>
    intro row tot
    obtain ⟨k, v⟩ := hd
    rw [rowFold, cellsM]
    cases hb : buildCell f fw sw k v with
    | error e => rfl
    | ok c =>
      simp only []
      rw [ih (row ++ [c]) (totalsAdd tot k v)]
      cases hc : cellsM f fw sw rest with
      | error e => rfl
      | ok cs => rfl

/-- Whether one per-file step succeeds depends only on the parsed file
data (and the flag), never on the accumulated state: in particular a
"where"-key collision with an earlier suite can never abort the run. -/
theorem processSuite_isOk_independent (f : Bool) (x : XMLData) (st1 st2 : MainState) :
    isOkE (processSuite f st1 x) = isOkE (processSuite f st2 x) := by
  unfold processSuite
  cases hf : whereOf x.failure with
  | error e => rfl
  | ok fw =>
    simp only []
    cases hs : whereOf x.skip with
    | error e => rfl
    | ok sw =>
      simp only []
      have h1 := rowFold_isOk f fw sw x.summary [] st1.total
      have h2 := rowFold_isOk f fw sw x.summary [] st2.total
      cases hr1 : rowFold f fw sw [] st1.total x.summary with
      | error e1 =>
        cases hr2 : rowFold f fw sw [] st2.total x.summary with
        | error e2 => rfl
        | ok p2 =>
          rw [hr1] at h1
          rw [hr2] at h2
          rw [← h2] at h1
          exact absurd h1 (by simp [isOkE])
      | ok p1 =>
        cases hr2 : rowFold f fw sw [] st2.total x.summary with
        | error e2 =>
          rw [hr1] at h1
          rw [hr2] at h2
          rw [← h2] at h1
          exact absurd h1 (by simp [isOkE])
        | ok p2 =>
          obtain ⟨r1, t1⟩ := p1
          obtain ⟨r2, t2⟩ := p2
          rfl

theorem suiteFold_failures_lookup (f : Bool) (w : String) (ss : List XMLSuite) :
    ∀ st st', suiteFold f st (ss.map ReportFile.ok) = .ok st' →
      alookup st'.failures w = lastFailFrom w (alookup st.failures w) ss := by
  induction ss with
  | nil =>
    intro st st' h
    rw [List.map_nil, suiteFold] at h
    injection h with h
    subst h
    rfl
  | cons s rest ih =>
    intro st st' h
    rw [List.map_cons, suiteFold] at h
    split at h
    · exact absurd h (by simp)
    · rename_i x hx
      split at h
      · exact absurd h (by simp)
      · rename_i st1 hp
        have hx' : parseXML s = .ok x := hx
        obtain ⟨fw, sw, row, tot, hfw, hsw, hrow, hst⟩ := processSuite_ok f st x st1 hp
        have hf1 : st1.failures = regFailures st.failures x.failure fw := by rw [hst]
        rw [ih st1 st' h, hf1]
        cases hxf : x.failure with
        | none =>
          have hentry : suiteFailEntry s = none := by
            unfold suiteFailEntry
            rw [hx']
            simp only []
            rw [hxf]
          rw [lastFailFrom, hentry]
          rfl
        | some t =>
          have hget : getCellData t = .ok fw := by
            rw [hxf] at hfw
            exact hfw
          have hentry : suiteFailEntry s = some (fw.getD "undefined", t) := by
            unfold suiteFailEntry
            rw [hx']
            simp only []
            rw [hxf]
            simp only []
            rw [hget]
          rw [lastFailFrom, hentry]
          simp only []
          show lastFailFrom w (alookup (objSet st.failures (fw.getD "undefined") t) w) rest = _
          rw [alookup_objSet]

/-- **C8.** When several suites resolve to the same "where" key, the
detail table the final failures map holds at that key is the table
produced by the last such suite in discovery order — colliding tables
are replaced, never merged — and a collision can never abort the run,
because a per-file step's success never depends on the accumulated
state. -/
theorem c8_last_write_wins (showSkipped : Bool) (ss : List XMLSuite) (st : MainState)
    (w : String)
    (hok : mainFold showSkipped (ss.map ReportFile.ok) = .ok st) :
    alookup st.failures w = lastFailTableFor w ss ∧
    (∀ x st1 st2, isOkE (processSuite showSkipped st1 x) = isOkE (processSuite showSkipped st2 x)) := by
  refine ⟨?_, fun x st1 st2 => processSuite_isOk_independent showSkipped x st1 st2⟩
  have h := suiteFold_failures_lookup showSkipped w ss initMainState st hok
  rw [h]
  rfl

/-- Two suites whose failure tables both register under `dup.Case`. -/
def collideA : XMLSuite :=
  ⟨[("failures", "1")],
   [⟨[("name", "dup.Case"), ("time", "1")], some ⟨some "m1", some "t1", some "s1"⟩, false⟩]⟩

/-- A second suite colliding on the same `dup.Case` key. -/
def collideB : XMLSuite :=
  ⟨[("failures", "1")],
   [⟨[("name", "dup.Case"), ("time", "2")], some ⟨some "m2", some "t2", some "s2"⟩, false⟩]⟩

/-- The state after folding the two colliding suites. -/
def collideState : MainState :=
  match mainFold false ([collideA, collideB].map ReportFile.ok) with
  | .ok st => st
  | .error _ => initMainState

/-- Witness for C8: the collision run succeeds, and the key `dup.Case`
holds the last writer's table. -/
theorem c8_last_write_wins_witness :
    mainFold false ([collideA, collideB].map ReportFile.ok) = .ok collideState ∧
    (alookup collideState.failures "dup.Case" = lastFailTableFor "dup.Case" [collideA, collideB] ∧
     (∀ x st1 st2, isOkE (processSuite false st1 x) = isOkE (processSuite false st2 x))) := by
  have hok : mainFold false ([collideA, collideB].map ReportFile.ok) = .ok collideState := rfl
  exact ⟨hok, c8_last_write_wins false [collideA, collideB] collideState "dup.Case" hok⟩

/-! ## C2 -/

theorem dropLead_append (p : List Char) : ∀ t, dropLead p (p ++ t) = some t := by
  induction p with
  | nil => intro t; rfl
  | cons c cs ih =>
    intro t
    show dropLead (c :: cs) (c :: (cs ++ t)) = some t
    rw [dropLead]
    simp [ih]

/-- A forward/back jump link's fragment resolves (under GitHub's
`user-content-` prefixing) exactly to the anchor id built from the same
(label, postfix, direction) triple. -/
theorem fragmentTarget_jumpLink (w p : String) (b : Bool) :
    fragmentTarget (jumpLinkStr w p b) = some (anchorIdStr w p b) := by
  unfold fragmentTarget jumpLinkStr
  rw [show ("#user-content-" ++ anchorIdStr w p b).data
      = "#user-content-".data ++ (anchorIdStr w p b).data from rfl]
  rw [dropLead_append]
  rfl

/-- A positive failures/errors count cell is exactly the anchor cell
built from the suite's "where" label and the failure postfix: its href
is the forward jump link and its id the back anchor id. -/
theorem buildCell_failures_link (f : Bool) (sw : Option String) (w : String) (k : String)
    (v : JSVal) (hk : k = "failures" ∨ k = "errors") (hv : v.gtZero = true) :
    buildCell f (some w) sw k v =
      .ok ⟨some (anchorCellHtml (jumpLinkStr w failurePfix false)
                  (anchorIdStr w failurePfix true) v.toStr), false⟩ := by
  unfold buildCell
  rw [if_pos hk, if_pos hv]
  rfl

theorem lastFailFrom_append (w : String) (l1 l2 : List XMLSuite) :
    ∀ acc, lastFailFrom w acc (l1 ++ l2) = lastFailFrom w (lastFailFrom w acc l1) l2 := by
  induction l1 with
  | nil => intro acc; rfl
  | cons s rest ih =>
    intro acc
    show lastFailFrom w acc (s :: (rest ++ l2)) = _
    rw [lastFailFrom, lastFailFrom]
    cases he : suiteFailEntry s with
    | none => exact ih acc
    | some e => exact ih _

theorem lastFailFrom_isSome (w : String) (ss : List XMLSuite) :
    ∀ acc : Option Table, acc.isSome = true → (lastFailFrom w acc ss).isSome = true := by
  induction ss with
  | nil => intro acc h; exact h
  | cons s rest ih =>
    intro acc h
    rw [lastFailFrom]
    cases he : suiteFailEntry s with
    | none => exact ih acc h
    | some e =>
      apply ih
      by_cases hc : e.1 = w
      · simp [hc]
      · simpa [hc] using h

theorem sectionBlocks_mem (h : String → String) (m : List (String × Table)) (w : String)
    (tb : Table) (hm : (w, tb) ∈ m) : Block.heading 2 (h w) ∈ sectionBlocks h m := by
  induction m with
  | nil => simp at hm
  | cons e rest ih =>
    rw [sectionBlocks]
    rcases List.mem_cons.1 hm with he | ht
    · rw [← he]
      exact List.mem_cons_self _ _
    · exact List.mem_cons_of_mem _ (List.mem_cons_of_mem _ (ih ht))

/-- **C2.** For a suite whose failure table carries the "where" label
`w`, the summary cell rendered for a positive failures/errors count is
the anchor cell built from `(w, "failures")` — forward href
`makeJumpLink` and back id `makeAnchorId(back)` — a failure detail
heading for the same `w` (built from the identical pair) is present in
the emitted report, the fragment referenced by the cell's forward link
is exactly the heading's anchor id, and the fragment referenced by the
heading's back link is exactly the cell's anchor id; the same fragment
equalities hold for the skip postfix. -/
theorem c2_anchor_symmetry (cfg : Config) (pre post : List XMLSuite) (s : XMLSuite)
    (x : XMLData) (t : Table) (w : String) (st : MainState) (blocks : List Block)
    (hx : parseXML s = .ok x)
    (ht : x.failure = some t)
    (hw : getCellData t = .ok (some w))
    (hok : mainFold (parseBoolean cfg.showSkippedInput)
        ((pre ++ s :: post).map ReportFile.ok) = .ok st)
    (hbl : mainBody cfg ((pre ++ s :: post).map ReportFile.ok) = .ok blocks) :
    (∀ (f : Bool) (sw : Option String) (k : String) (v : JSVal),
        (k = "failures" ∨ k = "errors") → v.gtZero = true →
        buildCell f (some w) sw k v =
          .ok ⟨some (anchorCellHtml (jumpLinkStr w failurePfix false)
                      (anchorIdStr w failurePfix true) v.toStr), false⟩) ∧
    Block.heading 2 (failureHeadingText w) ∈ blocks ∧
    fragmentTarget (jumpLinkStr w failurePfix false) = some (anchorIdStr w failurePfix false) ∧
    fragmentTarget (jumpLinkStr w failurePfix true) = some (anchorIdStr w failurePfix true) ∧
    (∀ p b, fragmentTarget (jumpLinkStr w p b) = some (anchorIdStr w p b)) := by
  have hentry : suiteFailEntry s = some (w, t) := by
    unfold suiteFailEntry
    rw [hx]
    simp only []
    rw [ht]
    simp only []
    rw [hw]
    rfl
  have hlook := suiteFold_failures_lookup (parseBoolean cfg.showSkippedInput) w
    (pre ++ s :: post) initMainState st hok
  have hsome : (alookup st.failures w).isSome = true := by
    rw [hlook]
    rw [show alookup initMainState.failures w = none from rfl]
    rw [lastFailFrom_append]
    rw [lastFailFrom, hentry]
    simp only [if_pos rfl]
    exact lastFailFrom_isSome w post (some t) rfl
  obtain ⟨tb, htb⟩ := Option.isSome_iff_exists.1 hsome
  have hmem : (w, tb) ∈ st.failures := mem_of_alookup_some st.failures w tb htb
  have hblocks : blocks =
      [Block.heading 1 (titleOf cfg.headerTail)]
      ++ (if ((pre ++ s :: post).map ReportFile.ok).length = 0 then [Block.raw noticeText]
          else [])
      ++ [Block.heading 2 "Summary", Block.table (st.summaryTable ++ [mkTotalRow st.total])]
      ++ sectionBlocks failureHeadingText st.failures
      ++ (if parseBoolean cfg.showSkippedInput then sectionBlocks skipHeadingText st.skips
          else []) := by
    unfold mainBody at hbl
    simp only [] at hbl
    rw [hok] at hbl
    injection hbl with hbl
    exact hbl.symm
  refine ⟨fun f sw k v hk hv => buildCell_failures_link f sw w k v hk hv, ?_,
    fragmentTarget_jumpLink w failurePfix false, fragmentTarget_jumpLink w failurePfix true,
    fun p b => fragmentTarget_jumpLink w p b⟩
  rw [hblocks]
  have hin : Block.heading 2 (failureHeadingText w)
      ∈ sectionBlocks failureHeadingText st.failures :=
    sectionBlocks_mem failureHeadingText st.failures w tb hmem
  simp only [List.append_assoc, List.mem_append]
  tauto

/-- The failure table `sampleB` produces. -/
def c2Table : Table :=
  match sampleBData.failure with
  | some t => t
  | none => []

/-- The blocks `main` emits for `[sampleA, sampleB]` with skip reporting
off. -/
def c2Blocks : List Block :=
  match mainBody ⟨"false", ""⟩ ([sampleA, sampleB].map ReportFile.ok) with
  | .ok bs => bs
  | .error _ => []

/-- Witness for C2 on `[sampleA, sampleB]`: `sampleB`'s failure table is
registered under `com.example.MyTest` and the wiring equalities hold. -/
theorem c2_anchor_symmetry_witness :
    (parseXML sampleB = .ok sampleBData ∧
     sampleBData.failure = some c2Table ∧
     getCellData c2Table = .ok (some "com.example.MyTest") ∧
     mainFold (parseBoolean "false") (([sampleA] ++ sampleB :: []).map ReportFile.ok)
        = .ok sampleState ∧
     mainBody ⟨"false", ""⟩ (([sampleA] ++ sampleB :: []).map ReportFile.ok) = .ok c2Blocks) ∧
    ((∀ (f : Bool) (sw : Option String) (k : String) (v : JSVal),
        (k = "failures" ∨ k = "errors") → v.gtZero = true →
        buildCell f (some "com.example.MyTest") sw k v =
          .ok ⟨some (anchorCellHtml (jumpLinkStr "com.example.MyTest" failurePfix false)
                      (anchorIdStr "com.example.MyTest" failurePfix true) v.toStr), false⟩) ∧
     Block.heading 2 (failureHeadingText "com.example.MyTest") ∈ c2Blocks ∧
     fragmentTarget (jumpLinkStr "com.example.MyTest" failurePfix false)
        = some (anchorIdStr "com.example.MyTest" failurePfix false) ∧
     fragmentTarget (jumpLinkStr "com.example.MyTest" failurePfix true)
        = some (anchorIdStr "com.example.MyTest" failurePfix true) ∧
     (∀ p b, fragmentTarget (jumpLinkStr "com.example.MyTest" p b)
        = some (anchorIdStr "com.example.MyTest" p b))) := by
  refine ⟨⟨rfl, rfl, rfl, rfl, rfl⟩, ?_⟩
  exact c2_anchor_symmetry ⟨"false", ""⟩ [sampleA] [] sampleB sampleBData c2Table
    "com.example.MyTest" sampleState c2Blocks rfl rfl rfl rfl rfl

end AndroidTestReport
